import Mathlib

/-!
# Verification of the adapter-driven sync engine of cursor-rules-sync

This file gives a shallow embedding of the core of the repository —
the sync engine (`linkEntry` / `unlinkEntry` / `importEntry` in
`src/sync-engine.ts`), the ignore-file editor (`addIgnoreEntry` /
`removeIgnoreEntry` in `src/utils.ts`), the config store
(`src/project-config.ts`: `getCombinedProjectConfig`, `mergeCombined`,
`migrateLegacyToNew`, `addDependencyGeneric`, `removeDependencyGeneric`),
the copilot-instructions adapter (`resolveSource` / `resolveTargetName`)
and the generic command handlers (`handleAdd` / `handleRemove`) — and
proves properties of the embedding.

Modelling conventions:

* Filesystem paths are lists of path segments (`path.join(a, b)` becomes
  list append); entry names and aliases occupy a single segment, which is
  how the CLI supplies them.  String-valued directory configuration (such
  as `rootPath` or a `sourceDir` override) is split into segments with
  `segsOf`, which also drops empty segments the way `path.join`
  normalisation does.
* The filesystem is an association list from paths to entries.  A file
  stores its content as a list of lines: the ignore-file editor splits on
  `/\r?\n/`, operates on lines, and joins with `\n`, so two raw contents
  with the same line decomposition are indistinguishable to every modelled
  operation.  `fs-extra`'s `pathExists` (which follows symbolic links, via
  `fs.access`) is modelled by a fuel-bounded resolution: a dangling or
  cyclic symlink does not "exist", exactly as `fs.access` fails on it.
* `fs.remove` deletes an entry and everything beneath it; `fs.lstat(...)
  .isSymbolicLink()` is a direct (non-following) lookup.
* Config files are modelled as parsed JSON values held in the world next
  to the filesystem (the engine only ever reads/writes them whole through
  `readJson`/`writeJson`); a missing or unparsable file reads as `{}`,
  exactly as `readConfigFile` does.  The repository-side source
  configuration is modelled after `getRepoSourceConfig`'s result shape.
* `execa('git', ...)` is modelled as appending the command to a log and
  succeeding; no claim in scope depends on a failing git subprocess.
-/

/-! ## JavaScript string and record helpers -/

/-- `String.prototype.trim`: strip leading and trailing whitespace.
Written structurally over the character list so that it evaluates inside
the kernel (the ASCII whitespace handling coincides with JS here). -/
def jsTrim (s : String) : String :=
  ⟨((s.data.dropWhile Char.isWhitespace).reverse.dropWhile Char.isWhitespace).reverse⟩

/-- `String.prototype.endsWith`, structurally. -/
def jsEndsWith (s sfx : String) : Bool :=
  sfx.data.isSuffixOf s.data

/-- JavaScript `alias || name`: an `undefined` or empty-string alias falls
back to the name (the empty string is falsy). -/
def jsOr (a : Option String) (b : String) : String :=
  match a with
  | some s => if s = "" then b else s
  | none => b

/-- JavaScript `alias && alias !== name` as used by the dependency
writers: true when the alias is truthy and differs from the name. -/
def aliasDiff (al : Option String) (name : String) : Bool :=
  match al with
  | some s => s ≠ "" && s ≠ name
  | none => false

/-- One value of a dependency record: either a bare repository URL, or an
object `{url, rule}` carrying the original source name. -/
inductive RuleEntry
  | url (s : String)
  | obj (u : String) (rule : Option String)
deriving DecidableEq

/-- A JSON object keyed by alias, in insertion order. -/
abbrev Record := List (String × RuleEntry)

/-- First-match lookup in a record (JS property read). -/
def rget : Record → String → Option RuleEntry
  | [], _ => none
  | kv :: rest, k => if kv.1 = k then some kv.2 else rget rest k

/-- JS property write: replaces the value in place when the key exists,
otherwise appends the key. -/
def rset : Record → String → RuleEntry → Record
  | [], k, v => [(k, v)]
  | kv :: rest, k, v => if kv.1 = k then (k, v) :: rest else kv :: rset rest k v

/-- JS `delete obj[k]`. -/
def rdel (r : Record) (k : String) : Record :=
  r.filter (fun kv => kv.1 ≠ k)

/-- JS object spread `{...a, ...b}`: keys of `a` in order with `b`'s
values winning on overlap, then the keys only in `b`. -/
def rmerge (a b : Record) : Record :=
  a.map (fun kv => (kv.1, (rget b kv.1).getD kv.2)) ++
    b.filter (fun kv => (rget a kv.1).isNone)

/-- JS truthiness of `record[alias]`: absent and the empty-string URL are
falsy, everything else is truthy. -/
def entryTruthy : Option RuleEntry → Bool
  | none => false
  | some (.url s) => s ≠ ""
  | some (.obj _ _) => true

/-! ## Filesystem model -/

/-- One filesystem entry: a regular file (content as lines), a directory,
or a symbolic link holding its referent path. -/
inductive FSEntry
  | file (lines : List String)
  | dir
  | symlink (target : List String)
deriving DecidableEq

/-- Whether an entry is a symbolic link (`lstat(...).isSymbolicLink()`). -/
def FSEntry.isSymlinkB : FSEntry → Bool
  | .symlink _ => true
  | _ => false

/-- The filesystem: an association list from segment paths to entries. -/
abbrev FS := List (List String × FSEntry)

/-- First-match lookup of a path. -/
def fsLookup : FS → List String → Option FSEntry
  | [], _ => none
  | kv :: rest, p => if kv.1 = p then some kv.2 else fsLookup rest p

/-- Write an entry at a path, replacing in place or appending. -/
def fsSet : FS → List String → FSEntry → FS
  | [], p, e => [(p, e)]
  | kv :: rest, p, e => if kv.1 = p then (p, e) :: rest else kv :: fsSet rest p e

/-- `fs.remove(p)`: delete the entry at `p` and everything beneath it. -/
def fsRemoveAll (fs : FS) (p : List String) : FS :=
  fs.filter (fun kv => !(p.isPrefixOf kv.1))

/-- Fuel-bounded link-following existence check; out of fuel means a
symlink cycle, on which `fs.access` fails. -/
def resolveExists (fs : FS) : Nat → List String → Bool
  | 0, _ => false
  | fuel + 1, p =>
    match fsLookup fs p with
    | none => false
    | some (.symlink q) => resolveExists fs fuel q
    | some _ => true

/-- `fs.pathExists(p)`: link-following existence.  The fuel bound exceeds
the number of entries, so every loop-free chain resolves fully. -/
def pathExists (fs : FS) (p : List String) : Bool :=
  resolveExists fs (fs.length + 1) p

/-- `(await fs.lstat(p)).isSymbolicLink()`: non-following symlink test. -/
def isSymlinkAt (fs : FS) (p : List String) : Bool :=
  match fsLookup fs p with
  | some (.symlink _) => true
  | _ => false

/-- Read a file's lines; a missing entry reads as the empty content
(whose line decomposition is `[""]`). -/
def readFileD (fs : FS) (p : List String) : List String :=
  match fsLookup fs p with
  | some (.file ls) => ls
  | _ => [""]

/-- `fs.writeFile`: store the given lines at the path. -/
def writeFile (fs : FS) (p : List String) (ls : List String) : FS :=
  fsSet fs p (.file ls)

/-- `fs.ensureDir`: create the directory entry when nothing is there. -/
def ensureDir (fs : FS) (p : List String) : FS :=
  match fsLookup fs p with
  | none => fsSet fs p .dir
  | some _ => fs

/-- `fs.createFile`: create an empty file. -/
def createFile (fs : FS) (p : List String) : FS :=
  fsSet fs p (.file [""])

/-- `fs.ensureSymlink(src, dst)` as reached by the engine: the engine only
calls it after removing an existing symlink or when the target resolved to
nothing, so an occupied destination is the error case (`EEXIST` on a real
entry, `ENOENT` from the identity `stat` on a dangling symlink crash). -/
def ensureSymlinkOpt (fs : FS) (src dst : List String) : Option FS :=
  match fsLookup fs dst with
  | none => some (fsSet fs dst (.symlink src))
  | some _ => none

/-- `fs.copy(src, dst)` (recursive): the subtree at `src` re-rooted at
`dst`, shadowing whatever was under `dst`. -/
def fsCopyAll (fs : FS) (src dst : List String) : FS :=
  (fs.filterMap (fun kv =>
    if src.isPrefixOf kv.1 then some (dst ++ kv.1.drop src.length, kv.2) else none)) ++
    fsRemoveAll fs dst

/-- Split a character list on `/` into segments (structural version of
`String.splitOn "/"`). -/
def segsOfAux : List Char → List Char → List String
  | [], acc => [⟨acc.reverse⟩]
  | c :: rest, acc =>
    if c = '/' then ⟨acc.reverse⟩ :: segsOfAux rest [] else segsOfAux rest (c :: acc)

/-- Split a string-valued directory setting into path segments, dropping
the empty segments that `path.join` normalisation would swallow. -/
def segsOf (s : String) : List String :=
  (segsOfAux s.data []).filter (fun x => x ≠ "")

/-! ## Ignore-file editor (`src/utils.ts`) -/

/-- Line-level `addIgnoreEntry`: no-op when the trimmed lines already
contain the entry; otherwise append (starting a fresh line when the
content does not end in a newline) the header — unless some trimmed line
already equals it — and the entry, ending with a newline.  At the line
level, "content ends with a newline" is "the last line is empty", and the
empty content is `[""]`. -/
def addIgnoreLines (lines : List String) (entry : String) (header : Option String) :
    List String × Bool :=
  let t := lines.map (fun l => jsTrim l)
  if entry ∈ t then (lines, false)
  else
    let base := if lines = [""] then []
      else if lines.getLast? = some "" then lines.dropLast else lines
    let hdr := match header with
      | some h => if h ∈ t then [] else [h]
      | none => []
    (base ++ hdr ++ [entry, ""], true)

/-- Line-level `removeIgnoreEntry` body: drop every line whose trimmed
form equals the entry; `none` when nothing matched. -/
def removeIgnoreLines (lines : List String) (entry : String) : Option (List String) :=
  let nl := lines.filter (fun l => jsTrim l ≠ entry)
  if nl.length = lines.length then none else some nl

/-- `addIgnoreEntry(filePath, entry, header)` on the filesystem: read the
content when the path exists, apply the line edit, append on change. -/
def addIgnoreEntryFS (fs : FS) (p : List String) (entry : String) (header : Option String) :
    FS × Bool :=
  let content := if pathExists fs p then readFileD fs p else [""]
  match addIgnoreLines content entry header with
  | (_, false) => (fs, false)
  | (nl, true) => (writeFile fs p nl, true)

/-- `removeIgnoreEntry(filePath, entry)` on the filesystem: false when the
path does not exist; otherwise filter the lines and rewrite on change. -/
def removeIgnoreEntryFS (fs : FS) (p : List String) (entry : String) : FS × Bool :=
  if pathExists fs p then
    match removeIgnoreLines (readFileD fs p) entry with
    | none => (fs, false)
    | some nl => (writeFile fs p nl, true)
  else (fs, false)

/-! ## Config store (`src/project-config.ts`) -/

/-- A legacy `cursor-rules*.json` file: an optional root path and a flat
cursor-rules dependency record. -/
structure LegacyConfig where
  rootPath : Option String := none
  rules : Option Record := none
deriving DecidableEq

/-- A current-format `ai-rules-sync*.json` project file: an optional root
path and dependency sections keyed by the two-level `(tool, subtype)`
config path (`config[tool][subtype]`). -/
structure NewConfig where
  rootPath : Option String := none
  sections : List ((String × String) × Record) := []
deriving DecidableEq

/-- First-match lookup of a `(tool, subtype)` section. -/
def sectGet : List ((String × String) × Record) → (String × String) → Option Record
  | [], _ => none
  | kv :: rest, k => if kv.1 = k then some kv.2 else sectGet rest k

/-- `config[tool]?.[subtype] || {}`. -/
def sect (c : NewConfig) (k : String × String) : Record :=
  (sectGet c.sections k).getD []

/-- Replace-or-append write of a section. -/
def sectsSet : List ((String × String) × Record) → (String × String) → Record →
    List ((String × String) × Record)
  | [], k, r => [(k, r)]
  | kv :: rest, k, r => if kv.1 = k then (k, r) :: rest else kv :: sectsSet rest k r

/-- Write one section of a config file. -/
def sectSet (c : NewConfig) (k : String × String) (r : Record) : NewConfig :=
  { c with sections := sectsSet c.sections k r }

/-- The result shape of `getRepoSourceConfig`: the per-(tool, subtype)
directory overrides of a rules repository. -/
structure RepoSourceConfig where
  rootPath : Option String := none
  cursorRules : Option String := none
  cursorCommands : Option String := none
  cursorSkills : Option String := none
  copilotInstructions : Option String := none
  claudeSkills : Option String := none
  claudeAgents : Option String := none
deriving DecidableEq

/-- `getSourceDir(repoConfig, tool, subtype, defaultDir)`: pick the
override for the tool/subtype, fall back to the default (`??`, so an
empty-string override is kept), and prepend a truthy root path. -/
def getSourceDir (rc : RepoSourceConfig) (tool subtype defaultDir : String) : String :=
  let rootPath := rc.rootPath.getD ""
  let toolDir : Option String :=
    if tool = "cursor" then
      if subtype = "rules" then rc.cursorRules
      else if subtype = "commands" then rc.cursorCommands
      else if subtype = "skills" then rc.cursorSkills
      else none
    else if tool = "copilot" then
      if subtype = "instructions" then rc.copilotInstructions else none
    else if tool = "claude" then
      if subtype = "skills" then rc.claudeSkills
      else if subtype = "agents" then rc.claudeAgents
      else none
    else none
  let dir := toolDir.getD defaultDir
  if rootPath ≠ "" then rootPath ++ "/" ++ dir else dir

/-- Which config generation a project is on (`getConfigSource`). -/
inductive ConfigSource
  | cnew
  | clegacy
  | cnone
deriving DecidableEq

/-- The world: the filesystem, the four project config files (parsed;
`none` is "file absent"), the repository-side source configuration, and a
log of executed git commands. -/
structure World where
  fs : FS := []
  newMain : Option NewConfig := none
  newLocal : Option NewConfig := none
  legacyMain : Option LegacyConfig := none
  legacyLocal : Option LegacyConfig := none
  repoCfg : Option RepoSourceConfig := none
  gitLog : List (List String) := []
deriving DecidableEq

/-- `readConfigFile` on a current-format file: `{}` when absent. -/
def readNewD (o : Option NewConfig) : NewConfig := o.getD {}

/-- `readConfigFile` on a legacy file: `{}` when absent. -/
def readLegacyD (o : Option LegacyConfig) : LegacyConfig := o.getD {}

/-- `getConfigSource`: any current-format file wins, else legacy, else
nothing. -/
def getConfigSource (w : World) : ConfigSource :=
  if w.newMain.isSome || w.newLocal.isSome then .cnew
  else if w.legacyMain.isSome || w.legacyLocal.isSome then .clegacy
  else .cnone

/-- `legacyToNew`: project a legacy file into the current shape
(cursor-rules only; the current source drops the legacy root path). -/
def legacyToNew (lg : LegacyConfig) : NewConfig :=
  { rootPath := none, sections := [(("cursor", "rules"), lg.rules.getD [])] }

/-- The six dependency sections `mergeCombined` rebuilds. -/
def sixKeys : List (String × String) :=
  [("cursor", "rules"), ("cursor", "commands"), ("cursor", "skills"),
   ("copilot", "instructions"), ("claude", "skills"), ("claude", "agents")]

/-- `mergeCombined(main, local)`: spread-merge each of the six sections,
local entries winning; the result carries no root path. -/
def mergeCombined (m l : NewConfig) : NewConfig :=
  { rootPath := none,
    sections := sixKeys.map (fun k => (k, rmerge (sect m k) (sect l k))) }

/-- `getCombinedProjectConfig`: current-format files exclusively when any
exists, else projected legacy files, else empty. -/
def getCombinedProjectConfig (w : World) : NewConfig :=
  match getConfigSource w with
  | .cnew => mergeCombined (readNewD w.newMain) (readNewD w.newLocal)
  | .clegacy =>
    mergeCombined (legacyToNew (readLegacyD w.legacyMain))
      (legacyToNew (readLegacyD w.legacyLocal))
  | .cnone => mergeCombined {} {}

/-- `migrateLegacyToNew`: only on a legacy-only project, write the
projected main file, write the projected local file when it has any
rules, report `migrated`. -/
def migrateLegacyToNew (w : World) : World × Bool :=
  match getConfigSource w with
  | .clegacy =>
    let nm := legacyToNew (readLegacyD w.legacyMain)
    let nl := legacyToNew (readLegacyD w.legacyLocal)
    let w1 := { w with newMain := some nm }
    let w2 := if (sect nl ("cursor", "rules")).length > 0
      then { w1 with newLocal := some nl } else w1
    (w2, true)
  | _ => (w, false)

/-- `addDependencyGeneric(projectPath, configPath, name, repoUrl, alias,
isLocal)`: migrate first, then upsert the dependency into the chosen
current-format file (aliased entries become `{url, rule}` objects). -/
def addDependencyGeneric (cp : String × String) (name url : String) (al : Option String)
    (isLocal : Bool) (w : World) : World × Bool :=
  let (w1, mig) := migrateLegacyToNew w
  let cfg := readNewD (if isLocal then w1.newLocal else w1.newMain)
  let targetName := jsOr al name
  let value : RuleEntry := if aliasDiff al name then .obj url (some name) else .url url
  let cfg' := sectSet cfg cp (rset (sect cfg cp) targetName value)
  let w2 := if isLocal then { w1 with newLocal := some cfg' }
    else { w1 with newMain := some cfg' }
  (w2, mig)

/-- `removeDependencyGeneric(projectPath, configPath, alias)`: migrate
first, then delete the alias from each current-format file whose value at
the alias is truthy, reporting which files were touched. -/
def removeDependencyGeneric (cp : String × String) (al : String) (w : World) :
    World × (List String × Bool) :=
  let (w1, mig) := migrateLegacyToNew w
  let mainCfg := readNewD w1.newMain
  let step1 := if entryTruthy (rget (sect mainCfg cp) al)
    then ({ w1 with newMain := some (sectSet mainCfg cp (rdel (sect mainCfg cp) al)) },
      ["ai-rules-sync.json"])
    else (w1, ([] : List String))
  let w2 := step1.1
  let localCfg := readNewD w2.newLocal
  let step2 := if entryTruthy (rget (sect localCfg cp) al)
    then ({ w2 with newLocal := some (sectSet localCfg cp (rdel (sect localCfg cp) al)) },
      ["ai-rules-sync.local.json"])
    else (w2, ([] : List String))
  (step2.1, (step1.2 ++ step2.2, mig))

/-! ## Sync engine (`src/sync-engine.ts`) -/

/-- The result of an adapter's `resolveSource` hook. -/
structure ResolvedSource where
  sourceName : String
  sourcePath : List String
  suffix : Option String
deriving DecidableEq

/-- The result of `linkEntry`. -/
structure LinkResult where
  sourceName : String
  targetName : String
  linked : Bool
deriving DecidableEq

/-- A sync adapter: the capability fields plus the two optional hooks.
`targetDirSegs` is the target directory as path segments and
`targetDirStr` the same directory as the literal string used to build
ignore-file lines (`${adapter.targetDir}/${targetName}`). -/
structure Adapter where
  tool : String
  subtype : String
  configPath : String × String
  defaultSourceDir : String
  targetDirSegs : List String
  targetDirStr : String
  resolveSource : Option (FS → List String → String → String → Except String ResolvedSource) := none
  resolveTargetName : Option (String → Option String → Option String → String) := none

/-- The project's general ignore file. -/
def gitignorePathOf (projectPath : List String) : List String :=
  projectPath ++ [".gitignore"]

/-- The project's private ignore file. -/
def excludePathOf (projectPath : List String) : List String :=
  projectPath ++ [".git", "info", "exclude"]

/-- The `.git/info` directory (the `path.dirname` of the exclude file). -/
def gitInfoDirOf (projectPath : List String) : List String :=
  projectPath ++ [".git", "info"]

/-- Source resolution step of `linkEntry`: compute the effective source
directory from the repository config, then delegate to the adapter hook
or fall back to the default join-and-check. -/
def resolveSourceStep (ad : Adapter) (repoDir : List String) (name : String) (w : World) :
    Except String ResolvedSource :=
  let sourceDir := getSourceDir (w.repoCfg.getD {}) ad.tool ad.subtype ad.defaultSourceDir
  match ad.resolveSource with
  | some h => h w.fs repoDir sourceDir name
  | none =>
    let sp := repoDir ++ segsOf sourceDir ++ [name]
    if pathExists w.fs sp then .ok ⟨name, sp, none⟩
    else .error ("Entry \"" ++ name ++ "\" not found in repository.")

/-- `handleIgnoreEntry(projectPath, entry, isLocal, add=true)`: the
private path goes to `.git/info/exclude` when `.git/info` exists
(creating the file first), warns-and-skips otherwise; the public path
goes to `.gitignore`. -/
def handleIgnoreEntryAdd (fs : FS) (projectPath : List String) (entry : String)
    (isLocal : Bool) : FS :=
  if isLocal then
    if pathExists fs (gitInfoDirOf projectPath) then
      let gie := excludePathOf projectPath
      let fs' := if pathExists fs gie then fs else createFile fs gie
      (addIgnoreEntryFS fs' gie entry (some "# AI Rules Sync")).1
    else fs
  else
    (addIgnoreEntryFS fs (gitignorePathOf projectPath) entry (some "# AI Rules Sync")).1

/-- Tail of `linkEntry` after the existing-target check: create the
symlink (failing when something still occupies the target path), then add
the ignore line. -/
def linkFinish (ad : Adapter) (projectPath : List String) (res : ResolvedSource)
    (targetName : String) (targetPath : List String) (isLocal : Bool) (w : World)
    (fs2 : FS) : World × Except String LinkResult :=
  match ensureSymlinkOpt fs2 res.sourcePath targetPath with
  | none => ({ w with fs := fs2 }, .error "EEXIST: target path already occupied")
  | some fs3 =>
    let entry := ad.targetDirStr ++ "/" ++ targetName
    let fs4 := handleIgnoreEntryAdd fs3 projectPath entry isLocal
    ({ w with fs := fs4 }, .ok ⟨res.sourceName, targetName, true⟩)

/-- `linkEntry(adapter, options)`: resolve the source, resolve the target
name, ensure the target directory, replace an existing symlink, skip
(non-fatally) an existing non-symlink, create the link, record the ignore
line. -/
def linkEntry (ad : Adapter) (projectPath repoDir : List String) (name : String)
    (al : Option String) (isLocal : Bool) (w : World) : World × Except String LinkResult :=
  match resolveSourceStep ad repoDir name w with
  | .error e => (w, .error e)
  | .ok res =>
    let targetName := match ad.resolveTargetName with
      | some f => f name al res.suffix
      | none => jsOr al name
    let targetDir := projectPath ++ ad.targetDirSegs
    let targetPath := targetDir ++ [targetName]
    let fs1 := ensureDir w.fs targetDir
    if pathExists fs1 targetPath then
      if isSymlinkAt fs1 targetPath then
        linkFinish ad projectPath res targetName targetPath isLocal w
          (fsRemoveAll fs1 targetPath)
      else ({ w with fs := fs1 }, .ok ⟨res.sourceName, targetName, false⟩)
    else
      linkFinish ad projectPath res targetName targetPath isLocal w fs1

/-- `unlinkEntry(adapter, projectPath, alias)`: remove the target path
when it (link-following) exists, then strip the ignore line from both
ignore files; the boolean reports whether the entry was removed (false
prints the "not found" message). -/
def unlinkEntry (ad : Adapter) (projectPath : List String) (al : String) (w : World) :
    World × Bool :=
  let targetPath := projectPath ++ ad.targetDirSegs ++ [al]
  let step := if pathExists w.fs targetPath then (fsRemoveAll w.fs targetPath, true)
    else (w.fs, false)
  let entry := ad.targetDirStr ++ "/" ++ al
  let fs2 := (removeIgnoreEntryFS step.1 (gitignorePathOf projectPath) entry).1
  let fs3 := (removeIgnoreEntryFS fs2 (excludePathOf projectPath) entry).1
  ({ w with fs := fs3 }, step.2)

/-- `importEntry(adapter, options)`: validate (target exists, is not a
symlink, destination free unless forced), then copy into the repository,
git add/commit (and push), delete the original, and re-link. -/
def importEntry (ad : Adapter) (projectPath repoDir : List String) (name : String)
    (al : Option String) (isLocal force push : Bool) (commitMessage : Option String)
    (w : World) : World × Except String (String × String) :=
  let targetDir := projectPath ++ ad.targetDirSegs
  let targetPath := targetDir ++ [name]
  if ¬ pathExists w.fs targetPath then
    (w, .error ("Entry \"" ++ name ++ "\" not found in project"))
  else if isSymlinkAt w.fs targetPath then
    (w, .error ("Entry \"" ++ name ++ "\" is already a symlink (already managed by ai-rules-sync)"))
  else
    let sourceDir := getSourceDir (w.repoCfg.getD {}) ad.tool ad.subtype ad.defaultSourceDir
    let destPath := repoDir ++ segsOf sourceDir ++ [name]
    if pathExists w.fs destPath && !force then
      (w, .error ("Entry \"" ++ name ++ "\" already exists in rules repository. Use --force to overwrite."))
    else
      let fs1 := if pathExists w.fs destPath then fsRemoveAll w.fs destPath else w.fs
      let fs2 := fsCopyAll fs1 targetPath destPath
      let msg := commitMessage.getD ("Import " ++ ad.tool ++ " " ++ ad.subtype ++ ": " ++ name)
      let log1 := w.gitLog ++ [["add"], ["commit", msg]] ++ (if push then [["push"]] else [])
      let fs3 := fsRemoveAll fs2 targetPath
      let w1 := { w with fs := fs3, gitLog := log1 }
      match linkEntry ad projectPath repoDir name al isLocal w1 with
      | (w2, .error e) => (w2, .error e)
      | (w2, .ok r) => (w2, .ok (r.sourceName, r.targetName))

/-! ## Command handlers (`src/commands/handlers.ts`) -/

/-- The result of `handleAdd`. -/
structure AddResult where
  sourceName : String
  targetName : String
  linked : Bool
  migrated : Bool
deriving DecidableEq

/-- `handleAdd(adapter, ctx, name, alias)`: link, then record the
dependency (omitting the alias when the target name already equals the
source name), then for local installs gitignore the private config
file. -/
def handleAdd (ad : Adapter) (projectPath repoDir : List String) (url name : String)
    (al : Option String) (isLocal : Bool) (w : World) : World × Except String AddResult :=
  match linkEntry ad projectPath repoDir name al isLocal w with
  | (w1, .error e) => (w1, .error e)
  | (w1, .ok r) =>
    let depAlias := if r.targetName = r.sourceName then none else some r.targetName
    let (w2, mig) := addDependencyGeneric ad.configPath r.sourceName url depAlias isLocal w1
    let w3 := if isLocal then
        { w2 with fs := (addIgnoreEntryFS w2.fs (gitignorePathOf projectPath)
          "ai-rules-sync.local.json" (some "# Local AI Rules Sync Config")).1 }
      else w2
    (w3, .ok ⟨r.sourceName, r.targetName, r.linked, mig⟩)

/-- `handleRemove(adapter, projectPath, alias)`: unlink, then remove the
dependency record from both config files. -/
def handleRemove (ad : Adapter) (projectPath : List String) (al : String) (w : World) :
    World × (List String × Bool) :=
  let (w1, _) := unlinkEntry ad projectPath al w
  removeDependencyGeneric ad.configPath al w1

/-! ## Built-in adapters -/

/-- The cursor-rules adapter's `resolveSource` hook: join and check. -/
def cursorResolveSource (fs : FS) (repoDir : List String) (rootPath name : String) :
    Except String ResolvedSource :=
  let sp := repoDir ++ segsOf rootPath ++ [name]
  if pathExists fs sp then .ok ⟨name, sp, none⟩
  else .error ("Rule \"" ++ name ++ "\" not found in repository.")

/-- The cursor-rules adapter (`src/adapters/cursor-rules.ts`). -/
def cursorRulesAdapter : Adapter :=
  { tool := "cursor", subtype := "rules", configPath := ("cursor", "rules"),
    defaultSourceDir := ".cursor/rules",
    targetDirSegs := [".cursor", "rules"], targetDirStr := ".cursor/rules",
    resolveSource := some cursorResolveSource,
    resolveTargetName := some (fun name al _ => jsOr al name) }

/-- The copilot-instructions `resolveSource` hook: use a suffixed name
as-is (existence-checked); otherwise try `name.instructions.md` and
`name.md`, failing when both exist, picking the unique one otherwise. -/
def copilotResolveSource (fs : FS) (repoDir : List String) (rootPath name : String) :
    Except String ResolvedSource :=
  if jsEndsWith name ".instructions.md" then
    let sp := repoDir ++ segsOf rootPath ++ [name]
    if pathExists fs sp then .ok ⟨name, sp, some ".instructions.md"⟩
    else .error ("Instruction \"" ++ name ++ "\" not found in repository.")
  else if jsEndsWith name ".md" then
    let sp := repoDir ++ segsOf rootPath ++ [name]
    if pathExists fs sp then .ok ⟨name, sp, some ".md"⟩
    else .error ("Instruction \"" ++ name ++ "\" not found in repository.")
  else
    let candA := name ++ ".instructions.md"
    let candB := name ++ ".md"
    let pathA := repoDir ++ segsOf rootPath ++ [candA]
    let pathB := repoDir ++ segsOf rootPath ++ [candB]
    let existsA := pathExists fs pathA
    let existsB := pathExists fs pathB
    if existsA && existsB then
      .error ("Both \"" ++ candA ++ "\" and \"" ++ candB ++
        "\" exist in repository. Please specify the suffix explicitly.")
    else if existsA then .ok ⟨candA, pathA, some ".instructions.md"⟩
    else if existsB then .ok ⟨candB, pathB, some ".md"⟩
    else .error ("Instruction \"" ++ name ++ "\" not found in repository.")

/-- The copilot-instructions `resolveTargetName` hook: keep a suffixed
base as-is, else append the (truthy) source suffix. -/
def copilotResolveTargetName (name : String) (al : Option String)
    (sourceSuffix : Option String) : String :=
  let base := jsOr al name
  if jsEndsWith base ".instructions.md" || jsEndsWith base ".md" then base
  else
    match sourceSuffix with
    | some sfx => if sfx = "" then base else base ++ sfx
    | none => base

/-- The copilot-instructions adapter (`src/adapters/copilot-instructions.ts`). -/
def copilotInstructionsAdapter : Adapter :=
  { tool := "copilot", subtype := "instructions", configPath := ("copilot", "instructions"),
    defaultSourceDir := "rules",
    targetDirSegs := [".github", "instructions"], targetDirStr := ".github/instructions",
    resolveSource := some copilotResolveSource,
    resolveTargetName := some copilotResolveTargetName }

/-- The entry at a path is a regular file or absent: the only states the
ignore-file editor is run against in the modelled flows (a directory or
symlink there would make the real `readFile`/`appendFile` error or write
through the link, outside the scope of every claim). -/
def fileOrMissingB (fs : FS) (p : List String) : Bool :=
  match fsLookup fs p with
  | some (.file _) => true
  | none => true
  | _ => false

/-- No line of the file at `p` trims to the entry. -/
def ignoreFree (fs : FS) (p : List String) (e : String) : Prop :=
  ∀ l ∈ readFileD fs p, jsTrim l ≠ e

/-- The path holds a regular file one of whose trimmed lines is the entry. -/
def containsEntry (fs : FS) (p : List String) (e : String) : Prop :=
  ∃ ls, fsLookup fs p = some (.file ls) ∧ e ∈ ls.map (fun l => jsTrim l)

/-- The concrete project root used by the concrete-root theorems. -/
def projRoot : List String := ["proj"]

/-- The concrete repository clone root used by the concrete-root theorems. -/
def repoRoot : List String := ["repo"]

/-- The effective cursor-rules source directory of the repository in `w`. -/
def curSD (w : World) : String :=
  getSourceDir (w.repoCfg.getD {}) "cursor" "rules" ".cursor/rules"

/-- The resolved cursor-rules source path for `name` in the world `w`. -/
def curSrcPath (w : World) (name : String) : List String :=
  "repo" :: (segsOf (curSD w) ++ [name])

/-- The effective copilot-instructions source directory of the repository
in `w`. -/
def copSD (w : World) : String :=
  getSourceDir (w.repoCfg.getD {}) "copilot" "instructions" "rules"

/-- The resolved copilot-instructions source path for a file name. -/
def copSrcPath (w : World) (fname : String) : List String :=
  "repo" :: (segsOf (copSD w) ++ [fname])

/-- The cursor-rules target directory of the concrete project. -/
def curTDir : List String := ["proj", ".cursor", "rules"]

/-- The cursor-rules target path of the concrete project. -/
def curTPath (t : String) : List String := ["proj", ".cursor", "rules", t]

/-- The concrete project's ignore-file paths. -/
def gPath : List String := ["proj", ".gitignore"]

/-- The concrete project's private ignore file. -/
def ePath : List String := ["proj", ".git", "info", "exclude"]

/-- The concrete project's `.git/info` directory. -/
def giDir : List String := ["proj", ".git", "info"]

/-! ## Toolkit lemmas: association-list filesystem -/

theorem fsLookup_fsSet_self (fs : FS) (p : List String) (e : FSEntry) :
    fsLookup (fsSet fs p e) p = some e := by
  induction fs with
  | nil => simp [fsSet, fsLookup]
  | cons kv rest ih =>
    by_cases h : kv.1 = p
    · simp [fsSet, h, fsLookup]
    · simp [fsSet, h, fsLookup, ih]

theorem fsLookup_fsSet_ne (fs : FS) (p q : List String) (e : FSEntry) (h : q ≠ p) :
    fsLookup (fsSet fs p e) q = fsLookup fs q := by
  have h' : p ≠ q := Ne.symm h
  induction fs with
  | nil => simp [fsSet, fsLookup, h']
  | cons kv rest ih =>
    by_cases hk : kv.1 = p
    · subst hk
      simp [fsSet, fsLookup, h']
    · by_cases hq : kv.1 = q
      · simp [fsSet, hk, fsLookup, hq, h, h']
      · simp [fsSet, hk, fsLookup, hq, ih]

theorem fsLookup_fsRemoveAll_of_not_under (fs : FS) (p q : List String)
    (h : p.isPrefixOf q = false) :
    fsLookup (fsRemoveAll fs p) q = fsLookup fs q := by
  induction fs with
  | nil => rfl
  | cons kv rest ih =>
    unfold fsRemoveAll at ih ⊢
    by_cases hp : p.isPrefixOf kv.1
    · have hq : kv.1 ≠ q := by
        intro hh
        rw [hh] at hp
        rw [hp] at h
        cases h
      rw [List.filter_cons]
      simp only [hp, Bool.not_true, Bool.false_eq_true, if_false]
      rw [ih]
      simp [fsLookup, hq]
    · rw [List.filter_cons]
      simp only [Bool.not_eq_true'] at hp
      simp only [hp, Bool.not_false, if_true]
      by_cases hq : kv.1 = q
      · simp [fsLookup, hq]
      · simp [fsLookup, hq, ih]

theorem fsLookup_fsRemoveAll_of_under (fs : FS) (p q : List String)
    (h : p.isPrefixOf q = true) :
    fsLookup (fsRemoveAll fs p) q = none := by
  induction fs with
  | nil => rfl
  | cons kv rest ih =>
    unfold fsRemoveAll at ih ⊢
    by_cases hp : p.isPrefixOf kv.1
    · rw [List.filter_cons]
      simp only [hp, Bool.not_true, Bool.false_eq_true, if_false]
      exact ih
    · have hq : kv.1 ≠ q := by
        intro hh
        rw [hh] at hp
        exact hp h
      rw [List.filter_cons]
      simp only [Bool.not_eq_true'] at hp
      simp only [hp, Bool.not_false, if_true]
      simp [fsLookup, hq, ih]

theorem fsLookup_ensureDir_ne (fs : FS) (p q : List String) (h : q ≠ p) :
    fsLookup (ensureDir fs p) q = fsLookup fs q := by
  unfold ensureDir
  cases fsLookup fs p with
  | none => exact fsLookup_fsSet_ne fs p q .dir h
  | some e => rfl

theorem ensureDir_of_isSome (fs : FS) (p : List String) (h : (fsLookup fs p).isSome) :
    ensureDir fs p = fs := by
  unfold ensureDir
  cases hl : fsLookup fs p with
  | none => rw [hl] at h; simp at h
  | some e => rfl

theorem fsLookup_ensureDir_isSome (fs : FS) (p : List String) :
    (fsLookup (ensureDir fs p) p).isSome := by
  unfold ensureDir
  cases hl : fsLookup fs p with
  | none => rw [fsLookup_fsSet_self]; rfl
  | some e => rw [hl]; rfl

/-! ## Toolkit lemmas: prefix tests on segment paths -/

theorem cons_isPrefixOf_cons (a b : String) (as bs : List String) :
    (a :: as).isPrefixOf (b :: bs) = ((a == b) && as.isPrefixOf bs) := rfl

theorem cons_isPrefixOf_nil (a : String) (as : List String) :
    (a :: as).isPrefixOf [] = false := rfl

theorem isPrefixOf_length_le {p q : List String} (h : p.isPrefixOf q = true) :
    p.length ≤ q.length := by
  induction p generalizing q with
  | nil => simp
  | cons a as ih =>
    cases q with
    | nil => rw [cons_isPrefixOf_nil] at h; cases h
    | cons b bs =>
      rw [cons_isPrefixOf_cons, Bool.and_eq_true] at h
      have := ih h.2
      simp only [List.length_cons]
      omega

theorem isPrefixOf_false_of_longer {p q : List String} (h : q.length < p.length) :
    p.isPrefixOf q = false := by
  cases hp : p.isPrefixOf q with
  | false => rfl
  | true => exact absurd (isPrefixOf_length_le hp) (by omega)

theorem nil_isPrefixOf (t : List String) : ([] : List String).isPrefixOf t = true := by
  cases t <;> rfl

theorem isPrefixOf_append_self (l t : List String) : l.isPrefixOf (l ++ t) = true := by
  induction l with
  | nil => exact nil_isPrefixOf t
  | cons a as ih =>
    rw [List.cons_append, cons_isPrefixOf_cons, ih]
    simp

theorem isPrefixOf_refl_seg (l : List String) : l.isPrefixOf l = true := by
  have h := isPrefixOf_append_self l []
  rwa [List.append_nil] at h

theorem append_ne_self (l : List String) (x : String) : l ++ [x] ≠ l := by
  intro h
  have := congrArg List.length h
  simp at this

/-! ## Toolkit lemmas: link-following existence -/

theorem resolveExists_none {fs : FS} {p : List String} (h : fsLookup fs p = none) :
    ∀ fuel, resolveExists fs fuel p = false := by
  intro fuel
  cases fuel with
  | zero => rfl
  | succ n => simp [resolveExists, h]

theorem pathExists_none {fs : FS} {p : List String} (h : fsLookup fs p = none) :
    pathExists fs p = false :=
  resolveExists_none h _

theorem fsLookup_ne_nil {fs : FS} {p : List String} {e : FSEntry}
    (h : fsLookup fs p = some e) : fs ≠ [] := by
  intro hn
  rw [hn] at h
  simp [fsLookup] at h

theorem pathExists_of_real {fs : FS} {p : List String} {e : FSEntry}
    (h : fsLookup fs p = some e) (hn : e.isSymlinkB = false) :
    pathExists fs p = true := by
  obtain ⟨kv, rest, hfs⟩ : ∃ kv rest, fs = kv :: rest := by
    cases fs with
    | nil => exact absurd rfl (fsLookup_ne_nil h)
    | cons kv rest => exact ⟨kv, rest, rfl⟩
  subst hfs
  show resolveExists _ (rest.length + 1 + 1) p = true
  simp only [resolveExists, h]
  cases e with
  | file ls => rfl
  | dir => rfl
  | symlink q => simp [FSEntry.isSymlinkB] at hn

theorem pathExists_symlink_real {fs : FS} {p q : List String} {e : FSEntry}
    (h1 : fsLookup fs p = some (.symlink q)) (h2 : fsLookup fs q = some e)
    (hn : e.isSymlinkB = false) : pathExists fs p = true := by
  obtain ⟨kv, rest, hfs⟩ : ∃ kv rest, fs = kv :: rest := by
    cases fs with
    | nil => exact absurd rfl (fsLookup_ne_nil h1)
    | cons kv rest => exact ⟨kv, rest, rfl⟩
  subst hfs
  show resolveExists _ (rest.length + 1 + 1) p = true
  have step : resolveExists (kv :: rest) (rest.length + 1 + 1) p
      = resolveExists (kv :: rest) (rest.length + 1) q := by
    simp only [resolveExists, h1]
  rw [step]
  simp only [resolveExists, h2]
  cases e with
  | file ls => rfl
  | dir => rfl
  | symlink r => simp [FSEntry.isSymlinkB] at hn

theorem symlink_of_pathExists_false {fs : FS} {p : List String} {e : FSEntry}
    (h : fsLookup fs p = some e) (hpe : pathExists fs p = false) :
    e.isSymlinkB = true := by
  cases hn : e.isSymlinkB with
  | true => rfl
  | false => rw [pathExists_of_real h hn] at hpe; cases hpe

theorem isSome_of_pathExists {fs : FS} {p : List String} (h : pathExists fs p = true) :
    (fsLookup fs p).isSome := by
  cases hl : fsLookup fs p with
  | none => rw [pathExists_none hl] at h; cases h
  | some e => rfl

/-! ## Toolkit lemmas: records and config sections -/

theorem rget_rset_self (r : Record) (k : String) (v : RuleEntry) :
    rget (rset r k v) k = some v := by
  induction r with
  | nil => simp [rset, rget]
  | cons kv rest ih =>
    by_cases h : kv.1 = k
    · simp [rset, h, rget]
    · simp [rset, h, rget, ih]

theorem rget_rset_ne (r : Record) (k q : String) (v : RuleEntry) (h : q ≠ k) :
    rget (rset r k v) q = rget r q := by
  have h' : k ≠ q := Ne.symm h
  induction r with
  | nil => simp [rset, rget, h']
  | cons kv rest ih =>
    by_cases hk : kv.1 = k
    · subst hk
      simp [rset, rget, h']
    · by_cases hq : kv.1 = q
      · simp [rset, hk, rget, hq, h, h']
      · simp [rset, hk, rget, hq, ih]

theorem rdel_cons (kv : String × RuleEntry) (rest : Record) (k : String) :
    rdel (kv :: rest) k = if kv.1 = k then rdel rest k else kv :: rdel rest k := by
  by_cases h : kv.1 = k
  · simp [rdel, List.filter_cons, h]
  · simp [rdel, List.filter_cons, h]

theorem rget_rdel_self (r : Record) (k : String) : rget (rdel r k) k = none := by
  induction r with
  | nil => rfl
  | cons kv rest ih =>
    rw [rdel_cons]
    by_cases h : kv.1 = k
    · simp [h, ih]
    · simp [h, rget, ih]

theorem rget_rdel_ne (r : Record) (k q : String) (h : q ≠ k) :
    rget (rdel r k) q = rget r q := by
  induction r with
  | nil => rfl
  | cons kv rest ih =>
    rw [rdel_cons]
    by_cases hk : kv.1 = k
    · have hq : kv.1 ≠ q := by rw [hk]; exact Ne.symm h
      simp [hk, rget, hq, ih, Ne.symm h]
    · by_cases hq : kv.1 = q
      · simp [hk, rget, hq, h]
      · simp [hk, rget, hq, ih]

theorem rget_append (x y : Record) (k : String) :
    rget (x ++ y) k = (rget x k).or (rget y k) := by
  induction x with
  | nil => simp [rget]
  | cons kv rest ih =>
    by_cases h : kv.1 = k
    · simp [rget, h]
    · simp [rget, h, ih]

theorem rget_map_getD (a b : Record) (k : String) :
    rget (a.map (fun kv => (kv.1, (rget b kv.1).getD kv.2))) k
      = (rget a k).map (fun v => (rget b k).getD v) := by
  induction a with
  | nil => rfl
  | cons kv rest ih =>
    by_cases h : kv.1 = k
    · subst h
      simp [rget]
    · simp [rget, h, ih]

theorem rget_filter_isNone (a b : Record) (k : String) :
    rget (b.filter (fun kv => (rget a kv.1).isNone)) k
      = if (rget a k).isNone then rget b k else none := by
  induction b with
  | nil => simp [rget]
  | cons kv rest ih =>
    rw [List.filter_cons]
    by_cases hk : kv.1 = k
    · subst hk
      by_cases hn : (rget a kv.1).isNone
      · simp [hn, rget, ih]
      · simp [hn, rget, ih]
    · by_cases hn : (rget a kv.1).isNone
      · simp [hn, rget, hk, ih]
      · simp [hn, rget, hk, ih]

theorem rget_rmerge (a b : Record) (k : String) :
    rget (rmerge a b) k = (rget b k).or (rget a k) := by
  unfold rmerge
  rw [rget_append, rget_map_getD, rget_filter_isNone]
  cases ha : rget a k with
  | none => simp
  | some v =>
    cases hb : rget b k with
    | none => simp
    | some u => simp

theorem sectGet_sectsSet_self (s : List ((String × String) × Record)) (k : String × String)
    (r : Record) : sectGet (sectsSet s k r) k = some r := by
  induction s with
  | nil => simp [sectsSet, sectGet]
  | cons kv rest ih =>
    by_cases h : kv.1 = k
    · simp [sectsSet, h, sectGet]
    · simp [sectsSet, h, sectGet, ih]

theorem sectGet_sectsSet_ne (s : List ((String × String) × Record)) (k q : String × String)
    (r : Record) (h : q ≠ k) : sectGet (sectsSet s k r) q = sectGet s q := by
  have h' : k ≠ q := Ne.symm h
  induction s with
  | nil => simp [sectsSet, sectGet, h']
  | cons kv rest ih =>
    by_cases hk : kv.1 = k
    · subst hk
      simp [sectsSet, sectGet, h']
    · by_cases hq : kv.1 = q
      · simp [sectsSet, hk, sectGet, hq, h, h']
      · simp [sectsSet, hk, sectGet, hq, ih]

theorem sect_sectSet_self (c : NewConfig) (k : String × String) (r : Record) :
    sect (sectSet c k r) k = r := by
  unfold sect sectSet
  simp [sectGet_sectsSet_self]

theorem sect_sectSet_ne (c : NewConfig) (k q : String × String) (r : Record) (h : q ≠ k) :
    sect (sectSet c k r) q = sect c q := by
  unfold sect sectSet
  simp [sectGet_sectsSet_ne _ _ _ _ h]

/-! ## Toolkit lemmas: ignore-file editor -/

theorem readFileD_of_not_exists {fs : FS} {p : List String}
    (h : pathExists fs p = false) : readFileD fs p = [""] := by
  unfold readFileD
  cases hl : fsLookup fs p with
  | none => rfl
  | some e =>
    have hs := symlink_of_pathExists_false hl h
    cases e with
    | file ls => simp [FSEntry.isSymlinkB] at hs
    | dir => simp [FSEntry.isSymlinkB] at hs
    | symlink q => rfl

theorem removeIgnoreLines_none {lines : List String} {e : String}
    (h : removeIgnoreLines lines e = none) : ∀ l ∈ lines, jsTrim l ≠ e := by
  simp only [removeIgnoreLines] at h
  by_cases hlen : (lines.filter (fun l => jsTrim l ≠ e)).length = lines.length
  · have hsub : List.Sublist (lines.filter (fun l => jsTrim l ≠ e)) lines :=
      List.filter_sublist lines
    have heq := hsub.eq_of_length hlen
    intro l hl
    exact of_decide_eq_true ((List.filter_eq_self.mp heq) l hl)
  · rw [if_neg hlen] at h
    cases h

theorem removeIgnoreLines_some {lines nl : List String} {e : String}
    (h : removeIgnoreLines lines e = some nl) : ∀ l ∈ nl, jsTrim l ≠ e := by
  simp only [removeIgnoreLines] at h
  by_cases hlen : (lines.filter (fun l => jsTrim l ≠ e)).length = lines.length
  · rw [if_pos hlen] at h
    cases h
  · rw [if_neg hlen] at h
    cases h
    intro l hl
    exact of_decide_eq_true (List.mem_filter.mp hl).2

theorem removeIgnoreEntryFS_free {e : String} (he : e ≠ "") (fs : FS) (p : List String) :
    ignoreFree (removeIgnoreEntryFS fs p e).1 p e := by
  unfold removeIgnoreEntryFS
  by_cases hpe : pathExists fs p = true
  · rw [if_pos hpe]
    cases hrm : removeIgnoreLines (readFileD fs p) e with
    | none =>
      show ignoreFree fs p e
      intro l hl
      exact removeIgnoreLines_none hrm l hl
    | some nl =>
      show ignoreFree (writeFile fs p nl) p e
      intro l hl
      have hrf : readFileD (writeFile fs p nl) p = nl := by
        unfold readFileD writeFile
        rw [fsLookup_fsSet_self]
      rw [hrf] at hl
      exact removeIgnoreLines_some hrm l hl
  · rw [if_neg hpe]
    intro l hl
    have hpe' : pathExists fs p = false := by
      cases hb : pathExists fs p with
      | false => rfl
      | true => exact absurd hb hpe
    rw [readFileD_of_not_exists hpe'] at hl
    simp at hl
    subst hl
    show jsTrim "" ≠ e
    exact Ne.symm he

theorem removeIgnoreEntryFS_lookup_ne {fs : FS} {p q : List String} {e : String}
    (h : q ≠ p) : fsLookup (removeIgnoreEntryFS fs p e).1 q = fsLookup fs q := by
  unfold removeIgnoreEntryFS
  by_cases hpe : pathExists fs p = true
  · rw [if_pos hpe]
    cases hrm : removeIgnoreLines (readFileD fs p) e with
    | none => rfl
    | some nl =>
      show fsLookup (writeFile fs p nl) q = fsLookup fs q
      exact fsLookup_fsSet_ne fs p q _ h
  · rw [if_neg hpe]

theorem addIgnoreEntryFS_lookup_ne {fs : FS} {p q : List String} {e : String}
    {hdr : Option String} (h : q ≠ p) :
    fsLookup (addIgnoreEntryFS fs p e hdr).1 q = fsLookup fs q := by
  simp only [addIgnoreEntryFS]
  rcases hadd : addIgnoreLines (if pathExists fs p = true then readFileD fs p else [""])
      e hdr with ⟨nl, b⟩
  cases b with
  | false => rfl
  | true =>
    show fsLookup (writeFile fs p nl) q = fsLookup fs q
    exact fsLookup_fsSet_ne fs p q _ h

theorem readFileD_congr {fs1 fs2 : FS} {p : List String}
    (h : fsLookup fs1 p = fsLookup fs2 p) : readFileD fs1 p = readFileD fs2 p := by
  unfold readFileD
  rw [h]

theorem ignoreFree_congr {fs1 fs2 : FS} {p : List String} {e : String}
    (h : fsLookup fs1 p = fsLookup fs2 p) (hf : ignoreFree fs2 p e) :
    ignoreFree fs1 p e := by
  intro l hl
  exact hf l (by rwa [readFileD_congr h] at hl)

theorem addIgnoreEntryFS_noop {fs : FS} {p : List String} {e : String}
    {hdr : Option String} (hc : containsEntry fs p e) :
    addIgnoreEntryFS fs p e hdr = (fs, false) := by
  obtain ⟨ls, hl, hm⟩ := hc
  have hpe : pathExists fs p = true := pathExists_of_real hl rfl
  have hrf : readFileD fs p = ls := by
    unfold readFileD
    rw [hl]
  simp only [addIgnoreEntryFS]
  rw [if_pos hpe, hrf]
  simp only [addIgnoreLines]
  rw [if_pos hm]

theorem addIgnoreEntryFS_contains {fs : FS} {p : List String} {e : String}
    {hdr : Option String} (ht : jsTrim e = e) (he : e ≠ "")
    (hf : fileOrMissingB fs p = true) :
    containsEntry (addIgnoreEntryFS fs p e hdr).1 p e := by
  simp only [addIgnoreEntryFS]
  by_cases hpe : pathExists fs p = true
  · rw [if_pos hpe]
    have hsome := isSome_of_pathExists hpe
    unfold fileOrMissingB at hf
    cases hl : fsLookup fs p with
    | none => rw [hl] at hsome; cases hsome
    | some ent =>
      cases ent with
      | dir => rw [hl] at hf; cases hf
      | symlink r => rw [hl] at hf; cases hf
      | file ls =>
        have hrf : readFileD fs p = ls := by
          unfold readFileD
          rw [hl]
        rw [hrf]
        by_cases hm : e ∈ ls.map (fun l => jsTrim l)
        · simp only [addIgnoreLines]
          rw [if_pos hm]
          exact ⟨ls, hl, hm⟩
        · simp only [addIgnoreLines]
          rw [if_neg hm]
          refine ⟨_, fsLookup_fsSet_self fs p _, List.mem_map.mpr ⟨e, ?_, ht⟩⟩
          simp
  · rw [if_neg hpe]
    have hm : e ∉ ([""] : List String).map (fun l => jsTrim l) := by
      intro hmem
      simp at hmem
      exact he hmem
    simp only [addIgnoreLines]
    rw [if_neg hm]
    refine ⟨_, fsLookup_fsSet_self fs p _, List.mem_map.mpr ⟨e, ?_, ht⟩⟩
    simp

/-! ## Claim C5: suffix ambiguity -/

/-- C5: for every bare name with no recognized suffix, if both candidate
files (`name + ".instructions.md"` and `name + ".md"`) exist in the
resolved source directory, file-mode source resolution fails with an
error whose message names both candidate files; it never silently picks
one of them. -/
theorem copilot_resolve_ambiguous_errors (fs : FS) (repoDir : List String)
    (rootPath name : String)
    (hbareI : jsEndsWith name ".instructions.md" = false)
    (hbare : jsEndsWith name ".md" = false)
    (hA : pathExists fs (repoDir ++ segsOf rootPath ++ [name ++ ".instructions.md"]) = true)
    (hB : pathExists fs (repoDir ++ segsOf rootPath ++ [name ++ ".md"]) = true) :
    copilotResolveSource fs repoDir rootPath name
      = .error ("Both \"" ++ (name ++ ".instructions.md") ++ "\" and \"" ++ (name ++ ".md")
          ++ "\" exist in repository. Please specify the suffix explicitly.")
    ∧ ∃ s1 s2 s3,
        ("Both \"" ++ (name ++ ".instructions.md") ++ "\" and \"" ++ (name ++ ".md")
          ++ "\" exist in repository. Please specify the suffix explicitly.")
        = s1 ++ (name ++ ".instructions.md") ++ s2 ++ (name ++ ".md") ++ s3 := by
  constructor
  · simp only [copilotResolveSource, hbareI, hbare, Bool.false_eq_true, if_false, hA, hB,
      Bool.and_self, if_true]
  · exact ⟨"Both \"", "\" and \"",
      "\" exist in repository. Please specify the suffix explicitly.", rfl⟩

/-- Witness for C5 at a concrete repository containing both candidates. -/
theorem copilot_resolve_ambiguous_errors_witness :
    copilotResolveSource
      [(["repo", "rules", "foo.instructions.md"], .file ["a"]),
       (["repo", "rules", "foo.md"], .file ["b"])]
      ["repo"] "rules" "foo"
      = .error ("Both \"" ++ ("foo" ++ ".instructions.md") ++ "\" and \"" ++ ("foo" ++ ".md")
          ++ "\" exist in repository. Please specify the suffix explicitly.") :=
  (copilot_resolve_ambiguous_errors
    [(["repo", "rules", "foo.instructions.md"], .file ["a"]),
     (["repo", "rules", "foo.md"], .file ["b"])]
    ["repo"] "rules" "foo" (by decide) (by decide) (by decide) (by decide)).1

/-! ## Claim C8: combined-config reading -/

theorem sect_mergeCombined (m l : NewConfig) (k : String × String) (hk : k ∈ sixKeys) :
    sect (mergeCombined m l) k = rmerge (sect m k) (sect l k) := by
  fin_cases hk <;> rfl

/-- C8: combined-config reading: if any current-format config file
exists, the result is computed from the current-format public and private
files only (legacy files are never merged in); the public and private
entries are merged per key with the private file's entry taking
precedence for an identical alias; if only legacy files exist they are
read as cursor-rules-only and projected into the current shape;
otherwise the result is empty. -/
theorem getCombinedProjectConfig_spec (w : World) :
    ((w.newMain.isSome || w.newLocal.isSome) = true →
      getCombinedProjectConfig w = mergeCombined (readNewD w.newMain) (readNewD w.newLocal))
    ∧ ((w.newMain.isSome || w.newLocal.isSome) = false →
        (w.legacyMain.isSome || w.legacyLocal.isSome) = true →
        getCombinedProjectConfig w
          = mergeCombined (legacyToNew (readLegacyD w.legacyMain))
              (legacyToNew (readLegacyD w.legacyLocal)))
    ∧ ((w.newMain.isSome || w.newLocal.isSome) = false →
        (w.legacyMain.isSome || w.legacyLocal.isSome) = false →
        getCombinedProjectConfig w = mergeCombined {} {}
          ∧ ∀ k ∈ sixKeys, sect (getCombinedProjectConfig w) k = [])
    ∧ (∀ k ∈ sixKeys, ∀ a : String,
        rget (sect (mergeCombined (readNewD w.newMain) (readNewD w.newLocal)) k) a
          = (rget (sect (readNewD w.newLocal) k) a).or
              (rget (sect (readNewD w.newMain) k) a)) := by
  refine ⟨?_, ?_, ?_, ?_⟩
  · intro h
    unfold getCombinedProjectConfig getConfigSource
    rw [if_pos h]
  · intro h1 h2
    unfold getCombinedProjectConfig getConfigSource
    rw [if_neg (by simp [h1]), if_pos h2]
  · intro h1 h2
    unfold getCombinedProjectConfig getConfigSource
    rw [if_neg (by simp [h1]), if_neg (by simp [h2])]
    refine ⟨rfl, ?_⟩
    intro k hk
    show sect (mergeCombined {} {}) k = []
    rw [sect_mergeCombined _ _ k hk]
    rfl
  · intro k hk a
    rw [sect_mergeCombined _ _ k hk, rget_rmerge]

/-- Witness for C8: each branch of the specification at a concrete
configuration state. -/
theorem getCombinedProjectConfig_spec_witness :
    (getCombinedProjectConfig
        { newMain := some { sections := [(("cursor", "rules"), [("a", .url "u1")])] },
          newLocal := some { sections := [(("cursor", "rules"), [("a", .url "u2")])] },
          legacyMain := some { rules := some [("z", .url "zz")] } }
      = mergeCombined
          (readNewD (some { sections := [(("cursor", "rules"), [("a", .url "u1")])] }))
          (readNewD (some { sections := [(("cursor", "rules"), [("a", .url "u2")])] })))
    ∧ (getCombinedProjectConfig
        { legacyMain := some { rules := some [("z", .url "zz")] } }
      = mergeCombined (legacyToNew (readLegacyD (some { rules := some [("z", .url "zz")] })))
          (legacyToNew (readLegacyD none)))
    ∧ (getCombinedProjectConfig ({} : World) = mergeCombined {} {})
    ∧ rget (sect (mergeCombined
          (readNewD (some { sections := [(("cursor", "rules"), [("a", .url "u1")])] }))
          (readNewD (some { sections := [(("cursor", "rules"), [("a", .url "u2")])] })))
          ("cursor", "rules")) "a"
        = some (.url "u2") := by
  refine ⟨?_, ?_, ?_, ?_⟩
  · exact (getCombinedProjectConfig_spec _).1 (by decide)
  · exact (getCombinedProjectConfig_spec
      { legacyMain := some { rules := some [("z", .url "zz")] } }).2.1 (by decide) (by decide)
  · exact ((getCombinedProjectConfig_spec ({} : World)).2.2.1 (by decide) (by decide)).1
  · rw [(getCombinedProjectConfig_spec
      { newMain := some { sections := [(("cursor", "rules"), [("a", .url "u1")])] },
        newLocal := some { sections := [(("cursor", "rules"), [("a", .url "u2")])] },
        legacyMain := some { rules := some [("z", .url "zz")] } }).2.2.2
      ("cursor", "rules") (by decide) "a"]
    decide

/-! ## Claim C9: legacy migration happens exactly once -/

theorem migrate_spec_legacy (w : World)
    (hnew : (w.newMain.isSome || w.newLocal.isSome) = false)
    (hleg : (w.legacyMain.isSome || w.legacyLocal.isSome) = true) :
    migrateLegacyToNew w =
      ({ w with
          newMain := some (legacyToNew (readLegacyD w.legacyMain)),
          newLocal :=
            if (sect (legacyToNew (readLegacyD w.legacyLocal)) ("cursor", "rules")).length > 0
            then some (legacyToNew (readLegacyD w.legacyLocal)) else w.newLocal }, true) := by
  unfold migrateLegacyToNew getConfigSource
  rw [if_neg (by simp [hnew]), if_pos hleg]
  by_cases hc : (sect (legacyToNew (readLegacyD w.legacyLocal)) ("cursor", "rules")).length > 0
  · simp only [hc, if_true]
  · simp only [hc, if_false]

theorem migrate_noop_of_new (w : World)
    (hnew : (w.newMain.isSome || w.newLocal.isSome) = true) :
    migrateLegacyToNew w = (w, false) := by
  unfold migrateLegacyToNew getConfigSource
  rw [if_pos hnew]

theorem addDependencyGeneric_frame (cp : String × String) (name url : String)
    (al : Option String) (isLocal : Bool) (w : World) :
    (addDependencyGeneric cp name url al isLocal w).1.legacyMain
        = (migrateLegacyToNew w).1.legacyMain
    ∧ (addDependencyGeneric cp name url al isLocal w).1.legacyLocal
        = (migrateLegacyToNew w).1.legacyLocal
    ∧ (addDependencyGeneric cp name url al isLocal w).1.fs = (migrateLegacyToNew w).1.fs
    ∧ (addDependencyGeneric cp name url al isLocal w).2 = (migrateLegacyToNew w).2
    ∧ (isLocal = false → (addDependencyGeneric cp name url al isLocal w).1.newMain.isSome
        = true)
    ∧ (isLocal = true → (addDependencyGeneric cp name url al isLocal w).1.newMain
        = (migrateLegacyToNew w).1.newMain) := by
  unfold addDependencyGeneric
  rcases migrateLegacyToNew w with ⟨w1, mig⟩
  cases isLocal <;> simp

theorem removeDependencyGeneric_frame (cp : String × String) (al : String) (w : World) :
    (removeDependencyGeneric cp al w).1.legacyMain = (migrateLegacyToNew w).1.legacyMain
    ∧ (removeDependencyGeneric cp al w).1.legacyLocal = (migrateLegacyToNew w).1.legacyLocal
    ∧ (removeDependencyGeneric cp al w).1.fs = (migrateLegacyToNew w).1.fs
    ∧ (removeDependencyGeneric cp al w).2.2 = (migrateLegacyToNew w).2 := by
  unfold removeDependencyGeneric
  rcases migrateLegacyToNew w with ⟨w1, mig⟩
  simp only []
  split
  · split
    · simp
    · simp
  · split
    · simp
    · simp

/-- C9: legacy-to-current config migration happens exactly once: running
a config-mutating operation against a legacy-only project rewrites the
equivalent current-format files and reports `migrated:true`; a second run
(current-format files now present) makes no further changes on behalf of
migration, reports `migrated:false`, and writes only current-format
files. -/
theorem legacy_migration_once (w : World) (cp cp2 cp3 : String × String)
    (name url name2 url2 : String) (al al2 : Option String) (isLocal isLocal2 : Bool)
    (a3 : String)
    (hnew : (w.newMain.isSome || w.newLocal.isSome) = false)
    (hleg : (w.legacyMain.isSome || w.legacyLocal.isSome) = true) :
    (migrateLegacyToNew w).2 = true
    ∧ (migrateLegacyToNew w).1.newMain = some (legacyToNew (readLegacyD w.legacyMain))
    ∧ (migrateLegacyToNew w).1.legacyMain = w.legacyMain
    ∧ (migrateLegacyToNew w).1.legacyLocal = w.legacyLocal
    ∧ (migrateLegacyToNew w).1.fs = w.fs
    ∧ (addDependencyGeneric cp name url al isLocal w).2 = true
    ∧ (addDependencyGeneric cp name url al isLocal w).1.legacyMain = w.legacyMain
    ∧ (addDependencyGeneric cp name url al isLocal w).1.legacyLocal = w.legacyLocal
    ∧ (addDependencyGeneric cp name url al isLocal w).1.newMain.isSome = true
    ∧ (addDependencyGeneric cp name url al isLocal w).1.fs = w.fs
    ∧ (addDependencyGeneric cp2 name2 url2 al2 isLocal2
        (addDependencyGeneric cp name url al isLocal w).1).2 = false
    ∧ (addDependencyGeneric cp2 name2 url2 al2 isLocal2
        (addDependencyGeneric cp name url al isLocal w).1).1.legacyMain = w.legacyMain
    ∧ (addDependencyGeneric cp2 name2 url2 al2 isLocal2
        (addDependencyGeneric cp name url al isLocal w).1).1.legacyLocal = w.legacyLocal
    ∧ (removeDependencyGeneric cp3 a3
        (addDependencyGeneric cp name url al isLocal w).1).2.2 = false
    ∧ (removeDependencyGeneric cp3 a3
        (addDependencyGeneric cp name url al isLocal w).1).1.legacyMain = w.legacyMain
    ∧ (removeDependencyGeneric cp3 a3
        (addDependencyGeneric cp name url al isLocal w).1).1.legacyLocal = w.legacyLocal
    ∧ (removeDependencyGeneric cp3 a3
        (addDependencyGeneric cp name url al isLocal w).1).1.fs = w.fs := by
  have hm := migrate_spec_legacy w hnew hleg
  have hf1 := addDependencyGeneric_frame cp name url al isLocal w
  have hMainSome : (addDependencyGeneric cp name url al isLocal w).1.newMain.isSome = true := by
    rcases Bool.eq_false_or_eq_true isLocal with hl | hl
    · rw [hf1.2.2.2.2.2 hl, hm]
      rfl
    · exact hf1.2.2.2.2.1 hl
  have hnew1 : ((addDependencyGeneric cp name url al isLocal w).1.newMain.isSome
      || (addDependencyGeneric cp name url al isLocal w).1.newLocal.isSome) = true := by
    rw [hMainSome]
    rfl
  have hm2 := migrate_noop_of_new _ hnew1
  have hf2 := addDependencyGeneric_frame cp2 name2 url2 al2 isLocal2
    (addDependencyGeneric cp name url al isLocal w).1
  have hf3 := removeDependencyGeneric_frame cp3 a3
    (addDependencyGeneric cp name url al isLocal w).1
  rw [hm2] at hf2 hf3
  have hLegM : (addDependencyGeneric cp name url al isLocal w).1.legacyMain = w.legacyMain := by
    rw [hf1.1, hm]
  have hLegL : (addDependencyGeneric cp name url al isLocal w).1.legacyLocal
      = w.legacyLocal := by
    rw [hf1.2.1, hm]
  have hFs : (addDependencyGeneric cp name url al isLocal w).1.fs = w.fs := by
    rw [hf1.2.2.1, hm]
  refine ⟨by rw [hm], by rw [hm], by rw [hm], by rw [hm], by rw [hm],
    by rw [hf1.2.2.2.1, hm], hLegM, hLegL, hMainSome, hFs,
    hf2.2.2.2.1, hf2.1.trans hLegM, hf2.2.1.trans hLegL,
    hf3.2.2.2, hf3.1.trans hLegM, hf3.2.1.trans hLegL, hf3.2.2.1.trans hFs⟩

/-- Witness for C9 at a concrete legacy-only project. -/
theorem legacy_migration_once_witness :
    ((migrateLegacyToNew { legacyMain := some { rules := some [("r", .url "u")] } }).2 = true)
    ∧ ((addDependencyGeneric ("cursor", "rules") "r2" "u2" none false
        { legacyMain := some { rules := some [("r", .url "u")] } }).2 = true)
    ∧ ((addDependencyGeneric ("cursor", "rules") "r3" "u3" none false
        (addDependencyGeneric ("cursor", "rules") "r2" "u2" none false
          { legacyMain := some { rules := some [("r", .url "u")] } }).1).2 = false) := by
  refine ⟨?_, ?_, ?_⟩
  · exact (legacy_migration_once { legacyMain := some { rules := some [("r", .url "u")] } }
      ("cursor", "rules") ("cursor", "rules") ("cursor", "rules") "r2" "u2" "r3" "u3"
      none none false false "x" (by decide) (by decide)).1
  · exact (legacy_migration_once { legacyMain := some { rules := some [("r", .url "u")] } }
      ("cursor", "rules") ("cursor", "rules") ("cursor", "rules") "r2" "u2" "r3" "u3"
      none none false false "x" (by decide) (by decide)).2.2.2.2.2.1
  · exact (legacy_migration_once { legacyMain := some { rules := some [("r", .url "u")] } }
      ("cursor", "rules") ("cursor", "rules") ("cursor", "rules") "r2" "u2" "r3" "u3"
      none none false false "x" (by decide) (by decide)).2.2.2.2.2.2.2.2.2.2.1

/-! ## Path separation facts for the concrete project and repository -/

theorem tpath_ne_gPath (t : String) : curTPath t ≠ gPath := by simp [curTPath, gPath]

theorem tpath_ne_ePath (t : String) : curTPath t ≠ ePath := by simp [curTPath, ePath]

theorem tpath_ne_giDir (t : String) : curTPath t ≠ giDir := by simp [curTPath, giDir]

theorem tpath_ne_tdir (t : String) : curTPath t ≠ curTDir := by simp [curTPath, curTDir]

theorem gPath_ne_ePath : gPath ≠ ePath := by simp [gPath, ePath]

theorem ePath_ne_gPath : ePath ≠ gPath := by simp [gPath, ePath]

theorem gPath_ne_tdir : gPath ≠ curTDir := by simp [gPath, curTDir]

theorem ePath_ne_tdir : ePath ≠ curTDir := by simp [ePath, curTDir]

theorem giDir_ne_gPath : giDir ≠ gPath := by simp [giDir, gPath]

theorem giDir_ne_ePath : giDir ≠ ePath := by simp [giDir, ePath]

theorem giDir_ne_tdir : giDir ≠ curTDir := by simp [giDir, curTDir]

theorem src_ne_tpath (w : World) (n t : String) : curSrcPath w n ≠ curTPath t := by
  simp [curSrcPath, curTPath]

theorem src_ne_gPath (w : World) (n : String) : curSrcPath w n ≠ gPath := by
  simp [curSrcPath, gPath]

theorem src_ne_ePath (w : World) (n : String) : curSrcPath w n ≠ ePath := by
  simp [curSrcPath, ePath]

theorem src_ne_giDir (w : World) (n : String) : curSrcPath w n ≠ giDir := by
  simp [curSrcPath, giDir]

theorem src_ne_tdir (w : World) (n : String) : curSrcPath w n ≠ curTDir := by
  simp [curSrcPath, curTDir]

theorem tpath_npre_gPath (t : String) : (curTPath t).isPrefixOf gPath = false := by
  simp [curTPath, gPath, cons_isPrefixOf_cons]

theorem tpath_npre_ePath (t : String) : (curTPath t).isPrefixOf ePath = false := by
  simp [curTPath, ePath, cons_isPrefixOf_cons]

theorem tpath_npre_giDir (t : String) : (curTPath t).isPrefixOf giDir = false := by
  simp [curTPath, giDir, cons_isPrefixOf_cons]

theorem tpath_npre_tdir (t : String) : (curTPath t).isPrefixOf curTDir = false := by
  simp [curTPath, curTDir, cons_isPrefixOf_cons]

theorem tpath_npre_src (w : World) (n t : String) :
    (curTPath t).isPrefixOf (curSrcPath w n) = false := by
  simp [curTPath, curSrcPath, cons_isPrefixOf_cons]

/-! ## Unfolding lemmas for the cursor-rules link path -/

theorem resolveSourceStep_cursor (w : World) (name : String) :
    resolveSourceStep cursorRulesAdapter repoRoot name w
      = if pathExists w.fs (curSrcPath w name) = true
        then .ok ⟨name, curSrcPath w name, none⟩
        else .error ("Rule \"" ++ name ++ "\" not found in repository.") := rfl

theorem linkEntry_cursor_resolved (w : World) (name : String) (al : Option String)
    (isLocal : Bool) (hsp : pathExists w.fs (curSrcPath w name) = true) :
    linkEntry cursorRulesAdapter projRoot repoRoot name al isLocal w =
      (if pathExists (ensureDir w.fs curTDir) (curTPath (jsOr al name)) = true then
        if isSymlinkAt (ensureDir w.fs curTDir) (curTPath (jsOr al name)) = true then
          linkFinish cursorRulesAdapter projRoot ⟨name, curSrcPath w name, none⟩
            (jsOr al name) (curTPath (jsOr al name)) isLocal w
            (fsRemoveAll (ensureDir w.fs curTDir) (curTPath (jsOr al name)))
        else ({ w with fs := ensureDir w.fs curTDir }, .ok ⟨name, jsOr al name, false⟩)
      else
        linkFinish cursorRulesAdapter projRoot ⟨name, curSrcPath w name, none⟩
          (jsOr al name) (curTPath (jsOr al name)) isLocal w (ensureDir w.fs curTDir)) := by
  unfold linkEntry
  rw [resolveSourceStep_cursor, if_pos hsp]
  rfl

theorem linkFinish_cursor (res : ResolvedSource) (tn : String) (tp : List String)
    (isLocal : Bool) (w : World) (fs2 : FS) (hnone : fsLookup fs2 tp = none) :
    linkFinish cursorRulesAdapter projRoot res tn tp isLocal w fs2 =
      ({ w with
          fs := handleIgnoreEntryAdd (fsSet fs2 tp (.symlink res.sourcePath)) projRoot
              (".cursor/rules/" ++ tn) isLocal },
        .ok ⟨res.sourceName, tn, true⟩) := by
  unfold linkFinish ensureSymlinkOpt
  rw [hnone]
  rfl

theorem handleIgnoreEntryAdd_false (fs : FS) (e : String) :
    handleIgnoreEntryAdd fs projRoot e false
      = (addIgnoreEntryFS fs gPath e (some "# AI Rules Sync")).1 := rfl

theorem handleIgnoreEntryAdd_true (fs : FS) (e : String) :
    handleIgnoreEntryAdd fs projRoot e true =
      if pathExists fs giDir = true then
        (addIgnoreEntryFS (if pathExists fs ePath = true then fs else createFile fs ePath)
          ePath e (some "# AI Rules Sync")).1
      else fs := rfl

theorem handleIgnoreEntryAdd_lookup_ne (fs : FS) (e : String) (isLocal : Bool)
    (k : List String) (h1 : k ≠ gPath) (h2 : k ≠ ePath) :
    fsLookup (handleIgnoreEntryAdd fs projRoot e isLocal) k = fsLookup fs k := by
  cases isLocal with
  | false =>
    rw [handleIgnoreEntryAdd_false]
    exact addIgnoreEntryFS_lookup_ne h1
  | true =>
    rw [handleIgnoreEntryAdd_true]
    by_cases hg : pathExists fs giDir = true
    · rw [if_pos hg, addIgnoreEntryFS_lookup_ne h2]
      by_cases hp : pathExists fs ePath = true
      · rw [if_pos hp]
      · rw [if_neg hp]
        show fsLookup (fsSet fs ePath (.file [""])) k = fsLookup fs k
        exact fsLookup_fsSet_ne fs ePath k _ h2
    · rw [if_neg hg]

/-! ## Claim C2: linkEntry skips an existing non-symlink target -/

/-- C2: for every name, if a non-symlink file or directory already
occupies the target path, `linkEntry` leaves it untouched, does not
throw, and returns a result with `linked:false`. -/
theorem linkEntry_skips_nonsymlink_target (w : World) (name : String) (al : Option String)
    (isLocal : Bool) (e0 : FSEntry)
    (hsp : pathExists w.fs (curSrcPath w name) = true)
    (hocc : fsLookup w.fs (curTPath (jsOr al name)) = some e0)
    (hns : e0.isSymlinkB = false) :
    linkEntry cursorRulesAdapter projRoot repoRoot name al isLocal w
      = ({ w with fs := ensureDir w.fs curTDir }, .ok ⟨name, jsOr al name, false⟩)
    ∧ fsLookup (linkEntry cursorRulesAdapter projRoot repoRoot name al isLocal w).1.fs
        (curTPath (jsOr al name)) = some e0 := by
  have hocc1 : fsLookup (ensureDir w.fs curTDir) (curTPath (jsOr al name)) = some e0 := by
    rw [fsLookup_ensureDir_ne _ _ _ (tpath_ne_tdir _)]
    exact hocc
  have hpe : pathExists (ensureDir w.fs curTDir) (curTPath (jsOr al name)) = true :=
    pathExists_of_real hocc1 hns
  have hsym : isSymlinkAt (ensureDir w.fs curTDir) (curTPath (jsOr al name)) = false := by
    unfold isSymlinkAt
    rw [hocc1]
    cases e0 with
    | file ls => rfl
    | dir => rfl
    | symlink q => simp [FSEntry.isSymlinkB] at hns
  have heq : linkEntry cursorRulesAdapter projRoot repoRoot name al isLocal w
      = ({ w with fs := ensureDir w.fs curTDir }, .ok ⟨name, jsOr al name, false⟩) := by
    rw [linkEntry_cursor_resolved w name al isLocal hsp, if_pos hpe,
      if_neg (by rw [hsym]; exact Bool.false_ne_true)]
  exact ⟨heq, by rw [heq]; exact hocc1⟩

/-- Witness for C2: a concrete project where a real file occupies the
target path. -/
theorem linkEntry_skips_nonsymlink_target_witness :
    linkEntry cursorRulesAdapter projRoot repoRoot "react" none false
      { fs := [(["repo", ".cursor", "rules", "react"], .dir),
               (["proj", ".cursor", "rules", "react"], .file ["keep"])] }
      = ({ fs := [(["repo", ".cursor", "rules", "react"], .dir),
               (["proj", ".cursor", "rules", "react"], .file ["keep"]),
               (["proj", ".cursor", "rules"], .dir)] },
         .ok ⟨"react", "react", false⟩) := by
  have h := (linkEntry_skips_nonsymlink_target
    { fs := [(["repo", ".cursor", "rules", "react"], .dir),
             (["proj", ".cursor", "rules", "react"], .file ["keep"])] }
    "react" none false (.file ["keep"]) (by decide) (by decide) (by decide)).1
  rw [h]
  rfl

/-! ## Claims C1 and C10: unlinkEntry behavior -/

theorem unlinkEntry_cursor_eq (w : World) (al : String) :
    unlinkEntry cursorRulesAdapter projRoot al w =
      (let step := if pathExists w.fs (curTPath al) = true
          then (fsRemoveAll w.fs (curTPath al), true) else (w.fs, false)
       ({ w with
          fs := (removeIgnoreEntryFS ((removeIgnoreEntryFS step.1 gPath
              (".cursor/rules/" ++ al)).1) ePath (".cursor/rules/" ++ al)).1 },
        step.2)) := rfl

theorem curEntry_ne_empty (s : String) : (".cursor/rules/" ++ s) ≠ "" := by
  intro h
  have hlen := congrArg String.length h
  rw [String.length_append] at hlen
  have h14 : (".cursor/rules/" : String).length = 14 := by decide
  have h0 : ("" : String).length = 0 := by decide
  rw [h14, h0] at hlen
  omega

/-- C1 counterexample: a concrete project where a real (non-symlink) file
occupies `targetDir/alias`; `unlinkEntry` deletes it and reports a
removal, not a skip, so the claimed data-loss protection does not hold
for `unlinkEntry`. -/
theorem unlinkEntry_deletes_nonsymlink_cex :
    fsLookup [(["proj", ".cursor", "rules", "a"], FSEntry.file ["data"])] (curTPath "a")
        = some (.file ["data"])
    ∧ (FSEntry.file ["data"]).isSymlinkB = false
    ∧ fsLookup (unlinkEntry cursorRulesAdapter projRoot "a"
        { fs := [(["proj", ".cursor", "rules", "a"], FSEntry.file ["data"])] }).1.fs
        (curTPath "a") = none
    ∧ (unlinkEntry cursorRulesAdapter projRoot "a"
        { fs := [(["proj", ".cursor", "rules", "a"], FSEntry.file ["data"])] }).2 = true := by
  decide

/-- C1 (amended): `unlinkEntry` removes whatever filesystem entry resolves
at `targetDir/alias`, whether or not it is a symbolic link — an existing
non-symlink entry is deleted and reported as removed, not skipped; the
never-overwrite/never-delete protection of the data model applies to
`linkEntry` only. -/
theorem unlinkEntry_removes_existing_entry (w : World) (al : String) (e0 : FSEntry)
    (hocc : fsLookup w.fs (curTPath al) = some e0) (hns : e0.isSymlinkB = false) :
    (unlinkEntry cursorRulesAdapter projRoot al w).2 = true
    ∧ fsLookup (unlinkEntry cursorRulesAdapter projRoot al w).1.fs (curTPath al) = none := by
  have hpe : pathExists w.fs (curTPath al) = true := pathExists_of_real hocc hns
  rw [unlinkEntry_cursor_eq]
  constructor
  · simp [hpe]
  · simp only [hpe, if_true]
    rw [removeIgnoreEntryFS_lookup_ne (tpath_ne_ePath al),
      removeIgnoreEntryFS_lookup_ne (tpath_ne_gPath al),
      fsLookup_fsRemoveAll_of_under _ _ _ (isPrefixOf_refl_seg _)]

/-- Witness for the amended C1 at a concrete project with a real file at
the target path. -/
theorem unlinkEntry_removes_existing_entry_witness :
    (unlinkEntry cursorRulesAdapter projRoot "b"
        { fs := [(["proj", ".cursor", "rules", "b"], FSEntry.file ["x", "y"])] }).2 = true
    ∧ fsLookup (unlinkEntry cursorRulesAdapter projRoot "b"
        { fs := [(["proj", ".cursor", "rules", "b"], FSEntry.file ["x", "y"])] }).1.fs
        (curTPath "b") = none :=
  unlinkEntry_removes_existing_entry
    { fs := [(["proj", ".cursor", "rules", "b"], FSEntry.file ["x", "y"])] }
    "b" (.file ["x", "y"]) (by decide) (by decide)

/-- C10: for every alias, if `targetDir/alias` is a dangling symbolic
link, `unlinkEntry` does not remove the symlink and reports the entry as
not found (existence is tested with a link-following check), yet still
removes the corresponding line from both the `.gitignore` and the
`.git/info/exclude` ignore files. -/
theorem unlinkEntry_dangling_symlink_spec (w : World) (al : String) (q : List String)
    (hdang : fsLookup w.fs (curTPath al) = some (.symlink q))
    (hpe : pathExists w.fs (curTPath al) = false) :
    (unlinkEntry cursorRulesAdapter projRoot al w).2 = false
    ∧ fsLookup (unlinkEntry cursorRulesAdapter projRoot al w).1.fs (curTPath al)
        = some (.symlink q)
    ∧ ignoreFree (unlinkEntry cursorRulesAdapter projRoot al w).1.fs gPath
        (".cursor/rules/" ++ al)
    ∧ ignoreFree (unlinkEntry cursorRulesAdapter projRoot al w).1.fs ePath
        (".cursor/rules/" ++ al) := by
  rw [unlinkEntry_cursor_eq]
  refine ⟨by simp [hpe], ?_, ?_, ?_⟩
  · simp only [hpe, Bool.false_eq_true, if_false]
    rw [removeIgnoreEntryFS_lookup_ne (tpath_ne_ePath al),
      removeIgnoreEntryFS_lookup_ne (tpath_ne_gPath al)]
    exact hdang
  · simp only [hpe, Bool.false_eq_true, if_false]
    exact ignoreFree_congr (removeIgnoreEntryFS_lookup_ne gPath_ne_ePath)
      (removeIgnoreEntryFS_free (curEntry_ne_empty al) _ _)
  · simp only [hpe, Bool.false_eq_true, if_false]
    exact removeIgnoreEntryFS_free (curEntry_ne_empty al) _ _

/-- Witness for C10 at a concrete project holding a dangling symlink and
both ignore files mentioning the entry. -/
theorem unlinkEntry_dangling_symlink_spec_witness :
    (unlinkEntry cursorRulesAdapter projRoot "ghost"
      { fs := [(["proj", ".cursor", "rules", "ghost"], FSEntry.symlink ["repo", "gone"]),
               (["proj", ".gitignore"],
                 FSEntry.file ["# AI Rules Sync", ".cursor/rules/ghost", ""]),
               (["proj", ".git", "info", "exclude"],
                 FSEntry.file [".cursor/rules/ghost", ""])] }).2 = false
    ∧ fsLookup (unlinkEntry cursorRulesAdapter projRoot "ghost"
      { fs := [(["proj", ".cursor", "rules", "ghost"], FSEntry.symlink ["repo", "gone"]),
               (["proj", ".gitignore"],
                 FSEntry.file ["# AI Rules Sync", ".cursor/rules/ghost", ""]),
               (["proj", ".git", "info", "exclude"],
                 FSEntry.file [".cursor/rules/ghost", ""])] }).1.fs (curTPath "ghost")
        = some (.symlink ["repo", "gone"])
    ∧ ignoreFree (unlinkEntry cursorRulesAdapter projRoot "ghost"
      { fs := [(["proj", ".cursor", "rules", "ghost"], FSEntry.symlink ["repo", "gone"]),
               (["proj", ".gitignore"],
                 FSEntry.file ["# AI Rules Sync", ".cursor/rules/ghost", ""]),
               (["proj", ".git", "info", "exclude"],
                 FSEntry.file [".cursor/rules/ghost", ""])] }).1.fs gPath
        (".cursor/rules/" ++ "ghost")
    ∧ ignoreFree (unlinkEntry cursorRulesAdapter projRoot "ghost"
      { fs := [(["proj", ".cursor", "rules", "ghost"], FSEntry.symlink ["repo", "gone"]),
               (["proj", ".gitignore"],
                 FSEntry.file ["# AI Rules Sync", ".cursor/rules/ghost", ""]),
               (["proj", ".git", "info", "exclude"],
                 FSEntry.file [".cursor/rules/ghost", ""])] }).1.fs ePath
        (".cursor/rules/" ++ "ghost") :=
  unlinkEntry_dangling_symlink_spec
    { fs := [(["proj", ".cursor", "rules", "ghost"], FSEntry.symlink ["repo", "gone"]),
             (["proj", ".gitignore"],
               FSEntry.file ["# AI Rules Sync", ".cursor/rules/ghost", ""]),
             (["proj", ".git", "info", "exclude"],
               FSEntry.file [".cursor/rules/ghost", ""])] }
    "ghost" ["repo", "gone"] (by decide) (by decide)

/-! ## Claim C7: importEntry validates before mutating -/

theorem importEntry_cursor_eq (w : World) (name : String) (al : Option String)
    (isLocal force push : Bool) (cm : Option String) :
    importEntry cursorRulesAdapter projRoot repoRoot name al isLocal force push cm w =
      (if ¬ pathExists w.fs (curTPath name) = true then
        (w, .error ("Entry \"" ++ name ++ "\" not found in project"))
      else if isSymlinkAt w.fs (curTPath name) = true then
        (w, .error ("Entry \"" ++ name
          ++ "\" is already a symlink (already managed by ai-rules-sync)"))
      else if (pathExists w.fs (curSrcPath w name) && !force) = true then
        (w, .error ("Entry \"" ++ name
          ++ "\" already exists in rules repository. Use --force to overwrite."))
      else
        (let fs1 := if pathExists w.fs (curSrcPath w name) = true
            then fsRemoveAll w.fs (curSrcPath w name) else w.fs
         let fs2 := fsCopyAll fs1 (curTPath name) (curSrcPath w name)
         let msg := cm.getD ("Import cursor rules: " ++ name)
         let log1 := w.gitLog ++ [["add"], ["commit", msg]]
           ++ (if push then [["push"]] else [])
         let w1 := { w with fs := fsRemoveAll fs2 (curTPath name), gitLog := log1 }
         match linkEntry cursorRulesAdapter projRoot repoRoot name al isLocal w1 with
         | (w2, .error e) => (w2, .error e)
         | (w2, .ok r) => (w2, .ok (r.sourceName, r.targetName)))) := rfl

/-- C7: `importEntry` validates before mutating: if the project entry at
`targetDir/name` does not exist, or exists but is a symbolic link
(already managed), or the computed repository destination already exists
and `force` is not set, `importEntry` throws an error and no filesystem
state — neither the project's nor the repository's — has been changed. -/
theorem importEntry_validates_before_mutation (w : World) (name : String)
    (al : Option String) (isLocal push : Bool) (cm : Option String)
    (hcase :
      pathExists w.fs (curTPath name) = false
      ∨ (pathExists w.fs (curTPath name) = true ∧ isSymlinkAt w.fs (curTPath name) = true)
      ∨ (pathExists w.fs (curTPath name) = true ∧ isSymlinkAt w.fs (curTPath name) = false
          ∧ pathExists w.fs (curSrcPath w name) = true)) :
    ∃ e, importEntry cursorRulesAdapter projRoot repoRoot name al isLocal false push cm w
      = (w, .error e) := by
  rw [importEntry_cursor_eq]
  rcases hcase with h1 | ⟨h1, h2⟩ | ⟨h1, h2, h3⟩
  · have c1 : ¬ pathExists w.fs (curTPath name) = true := by
      rw [h1]
      exact Bool.false_ne_true
    rw [if_pos c1]
    exact ⟨_, rfl⟩
  · rw [if_neg (not_not_intro h1), if_pos h2]
    exact ⟨_, rfl⟩
  · have c2 : ¬ isSymlinkAt w.fs (curTPath name) = true := by
      rw [h2]
      exact Bool.false_ne_true
    have c3 : (pathExists w.fs (curSrcPath w name) && !false) = true := by
      rw [h3]
      rfl
    rw [if_neg (not_not_intro h1), if_neg c2, if_pos c3]
    exact ⟨_, rfl⟩

/-- Witness for C7 exercising each of the three validation failures at
concrete worlds. -/
theorem importEntry_validates_before_mutation_witness :
    (∃ e, importEntry cursorRulesAdapter projRoot repoRoot "x" none false false false none
        ({} : World) = (({} : World), .error e))
    ∧ (∃ e, importEntry cursorRulesAdapter projRoot repoRoot "x" none false false false none
        { fs := [(["proj", ".cursor", "rules", "x"], FSEntry.symlink ["repo", "r"]),
                 (["repo", "r"], FSEntry.dir)] }
        = ({ fs := [(["proj", ".cursor", "rules", "x"], FSEntry.symlink ["repo", "r"]),
                 (["repo", "r"], FSEntry.dir)] }, .error e))
    ∧ (∃ e, importEntry cursorRulesAdapter projRoot repoRoot "x" none false false false none
        { fs := [(["proj", ".cursor", "rules", "x"], FSEntry.dir),
                 (["repo", ".cursor", "rules", "x"], FSEntry.dir)] }
        = ({ fs := [(["proj", ".cursor", "rules", "x"], FSEntry.dir),
                 (["repo", ".cursor", "rules", "x"], FSEntry.dir)] }, .error e)) :=
  ⟨importEntry_validates_before_mutation ({} : World) "x" none false false none
      (Or.inl (by decide)),
   importEntry_validates_before_mutation _ "x" none false false none
      (Or.inr (Or.inl (by decide))),
   importEntry_validates_before_mutation _ "x" none false false none
      (Or.inr (Or.inr (by decide)))⟩

/-! ## Claim C6: suffix preservation on alias -/

theorem copilotResolveTargetName_bare (x y : String) (hy : y ≠ "")
    (hyi : jsEndsWith y ".instructions.md" = false) (hymd : jsEndsWith y ".md" = false) :
    copilotResolveTargetName x (some y) (some ".instructions.md")
      = y ++ ".instructions.md" := by
  have hne : (".instructions.md" : String) ≠ "" := by decide
  unfold copilotResolveTargetName jsOr
  simp [hy, hyi, hymd, hne]

theorem copilotResolveSource_unique (w : World) (x : String)
    (hxi : jsEndsWith x ".instructions.md" = false) (hx : jsEndsWith x ".md" = false)
    (hA : pathExists w.fs (copSrcPath w (x ++ ".instructions.md")) = true)
    (hB : pathExists w.fs (copSrcPath w (x ++ ".md")) = false) :
    resolveSourceStep copilotInstructionsAdapter repoRoot x w
      = .ok ⟨x ++ ".instructions.md", copSrcPath w (x ++ ".instructions.md"),
          some ".instructions.md"⟩ := by
  have hA' : pathExists w.fs (repoRoot ++ segsOf (copSD w) ++ [x ++ ".instructions.md"])
      = true := hA
  have hB' : pathExists w.fs (repoRoot ++ segsOf (copSD w) ++ [x ++ ".md"]) = false := hB
  show copilotResolveSource w.fs repoRoot (copSD w) x = _
  simp only [copilotResolveSource, hxi, hx, Bool.false_eq_true, if_false, hA', hB',
    Bool.and_false, if_true]
  rfl

/-- C6: for every bare name whose only existing source candidate is
`name + ".instructions.md"`, linking it under an alias that has no
recognized suffix produces the target name `alias + ".instructions.md"`
(the source's matched suffix is appended), not `alias + ".md"` and not
the bare alias. -/
theorem copilot_alias_preserves_suffix (w : World) (x y : String) (isLocal : Bool)
    (w' : World) (r : LinkResult)
    (hxi : jsEndsWith x ".instructions.md" = false) (hx : jsEndsWith x ".md" = false)
    (hy : y ≠ "") (hyi : jsEndsWith y ".instructions.md" = false)
    (hymd : jsEndsWith y ".md" = false)
    (hA : pathExists w.fs (copSrcPath w (x ++ ".instructions.md")) = true)
    (hB : pathExists w.fs (copSrcPath w (x ++ ".md")) = false)
    (hres : linkEntry copilotInstructionsAdapter projRoot repoRoot x (some y) isLocal w
      = (w', .ok r)) :
    r.targetName = y ++ ".instructions.md"
    ∧ r.targetName ≠ y ++ ".md"
    ∧ r.targetName ≠ y := by
  have hlen1 : (y ++ ".instructions.md") ≠ y ++ ".md" := by
    intro h
    have hl := congrArg String.length h
    rw [String.length_append, String.length_append] at hl
    have e1 : (".instructions.md" : String).length = 16 := by decide
    have e2 : (".md" : String).length = 3 := by decide
    rw [e1, e2] at hl
    omega
  have hlen2 : (y ++ ".instructions.md") ≠ y := by
    intro h
    have hl := congrArg String.length h
    rw [String.length_append] at hl
    have e1 : (".instructions.md" : String).length = 16 := by decide
    rw [e1] at hl
    omega
  have htn : r.targetName = y ++ ".instructions.md" := by
    unfold linkEntry at hres
    rw [copilotResolveSource_unique w x hxi hx hA hB] at hres
    simp only [copilotInstructionsAdapter] at hres
    rw [copilotResolveTargetName_bare x y hy hyi hymd] at hres
    split at hres
    · split at hres
      · unfold linkFinish at hres
        split at hres
        · simp at hres
        · rw [Prod.mk.injEq] at hres
          cases hres.2
          rfl
      · rw [Prod.mk.injEq] at hres
        cases hres.2
        rfl
    · unfold linkFinish at hres
      split at hres
      · simp at hres
      · rw [Prod.mk.injEq] at hres
        cases hres.2
        rfl
  exact ⟨htn, htn ▸ hlen1, htn ▸ hlen2⟩

/-- Witness for C6 at a concrete repository holding only
`foo.instructions.md`, linked with alias `bar`. -/
theorem copilot_alias_preserves_suffix_witness :
    (⟨"foo.instructions.md", "bar.instructions.md", true⟩ : LinkResult).targetName
        = "bar" ++ ".instructions.md"
    ∧ (⟨"foo.instructions.md", "bar.instructions.md", true⟩ : LinkResult).targetName
        ≠ "bar" ++ ".md"
    ∧ (⟨"foo.instructions.md", "bar.instructions.md", true⟩ : LinkResult).targetName
        ≠ "bar" := by
  have h2 : (linkEntry copilotInstructionsAdapter projRoot repoRoot "foo" (some "bar") false
      { fs := [(["repo", "rules", "foo.instructions.md"], FSEntry.file ["i"])] }).2
      = .ok (⟨"foo.instructions.md", "bar.instructions.md", true⟩ : LinkResult) := rfl
  have hres : linkEntry copilotInstructionsAdapter projRoot repoRoot "foo" (some "bar") false
      { fs := [(["repo", "rules", "foo.instructions.md"], FSEntry.file ["i"])] }
      = ((linkEntry copilotInstructionsAdapter projRoot repoRoot "foo" (some "bar") false
          { fs := [(["repo", "rules", "foo.instructions.md"], FSEntry.file ["i"])] }).1,
        .ok (⟨"foo.instructions.md", "bar.instructions.md", true⟩ : LinkResult)) := by
    have heta : linkEntry copilotInstructionsAdapter projRoot repoRoot "foo" (some "bar") false
        { fs := [(["repo", "rules", "foo.instructions.md"], FSEntry.file ["i"])] }
        = ((linkEntry copilotInstructionsAdapter projRoot repoRoot "foo" (some "bar") false
            { fs := [(["repo", "rules", "foo.instructions.md"], FSEntry.file ["i"])] }).1,
          (linkEntry copilotInstructionsAdapter projRoot repoRoot "foo" (some "bar") false
            { fs := [(["repo", "rules", "foo.instructions.md"], FSEntry.file ["i"])] }).2)
        := rfl
    rw [h2] at heta
    exact heta
  exact copilot_alias_preserves_suffix
    { fs := [(["repo", "rules", "foo.instructions.md"], FSEntry.file ["i"])] }
    "foo" "bar" false _ _ (by decide) (by decide) (by decide) (by decide) (by decide)
    (by decide) (by decide) hres

/-! ## Claim C4: linkEntry idempotence -/

theorem fileOrMissingB_congr {fs1 fs2 : FS} {p : List String}
    (h : fsLookup fs1 p = fsLookup fs2 p) :
    fileOrMissingB fs1 p = fileOrMissingB fs2 p := by
  unfold fileOrMissingB
  rw [h]

theorem containsEntry_congr {fs1 fs2 : FS} {p : List String} {e : String}
    (h : fsLookup fs1 p = fsLookup fs2 p) (hc : containsEntry fs2 p e) :
    containsEntry fs1 p e := by
  obtain ⟨ls, hl, hm⟩ := hc
  exact ⟨ls, h.trans hl, hm⟩

theorem isSymlinkAt_congr {fs1 fs2 : FS} {p : List String}
    (h : fsLookup fs1 p = fsLookup fs2 p) :
    isSymlinkAt fs1 p = isSymlinkAt fs2 p := by
  unfold isSymlinkAt
  rw [h]

theorem pathExists_stable_nonsymlink {fs fs' : FS} {p : List String}
    (h : fsLookup fs' p = fsLookup fs p) (hns : isSymlinkAt fs p = false) :
    pathExists fs' p = pathExists fs p := by
  cases hl : fsLookup fs p with
  | none => rw [pathExists_none (h.trans hl), pathExists_none hl]
  | some e =>
    cases e with
    | file ls => rw [pathExists_of_real (h.trans hl) rfl, pathExists_of_real hl rfl]
    | dir => rw [pathExists_of_real (h.trans hl) rfl, pathExists_of_real hl rfl]
    | symlink q =>
      exfalso
      unfold isSymlinkAt at hns
      rw [hl] at hns
      cases hns

theorem curTPath_length (t : String) : (curTPath t).length = 4 := rfl

theorem ne_tdir_of_under_tpath {t : String} {k : List String}
    (hpre : (curTPath t).isPrefixOf k = true) : k ≠ curTDir := by
  intro h
  have hle := isPrefixOf_length_le hpre
  rw [curTPath_length, h] at hle
  simp [curTDir] at hle

theorem ne_gPath_of_under_tpath {t : String} {k : List String}
    (hpre : (curTPath t).isPrefixOf k = true) : k ≠ gPath := by
  intro h
  rw [h] at hpre
  rw [tpath_npre_gPath] at hpre
  cases hpre

theorem ne_ePath_of_under_tpath {t : String} {k : List String}
    (hpre : (curTPath t).isPrefixOf k = true) : k ≠ ePath := by
  intro h
  rw [h] at hpre
  rw [tpath_npre_ePath] at hpre
  cases hpre

theorem linkEntry_cursor_ok_state (w : World) (name : String) (al : Option String)
    (isLocal : Bool) (e0 : FSEntry) (w1 : World) (r1 : LinkResult)
    (hsp : fsLookup w.fs (curSrcPath w name) = some e0) (hns : e0.isSymlinkB = false)
    (h1 : linkEntry cursorRulesAdapter projRoot repoRoot name al isLocal w = (w1, .ok r1))
    (hl : r1.linked = true) :
    r1 = ⟨name, jsOr al name, true⟩
    ∧ ∃ F0, fsLookup F0 (curTPath (jsOr al name)) = none
        ∧ (∀ k, (curTPath (jsOr al name)).isPrefixOf k = false →
            fsLookup F0 k = fsLookup (ensureDir w.fs curTDir) k)
        ∧ (∀ k, (curTPath (jsOr al name)).isPrefixOf k = true →
            k ≠ curTPath (jsOr al name) → fsLookup w.fs k = none → fsLookup F0 k = none)
        ∧ w1 = { w with fs := (handleIgnoreEntryAdd
            (fsSet F0 (curTPath (jsOr al name)) (.symlink (curSrcPath w name))) projRoot
            (".cursor/rules/" ++ jsOr al name) isLocal) } := by
  have hsp' : pathExists w.fs (curSrcPath w name) = true := pathExists_of_real hsp hns
  rw [linkEntry_cursor_resolved w name al isLocal hsp'] at h1
  by_cases hpe : pathExists (ensureDir w.fs curTDir) (curTPath (jsOr al name)) = true
  · by_cases hsym : isSymlinkAt (ensureDir w.fs curTDir) (curTPath (jsOr al name)) = true
    · rw [if_pos hpe, if_pos hsym] at h1
      have hnone : fsLookup (fsRemoveAll (ensureDir w.fs curTDir)
          (curTPath (jsOr al name))) (curTPath (jsOr al name)) = none :=
        fsLookup_fsRemoveAll_of_under _ _ _ (isPrefixOf_refl_seg _)
      rw [linkFinish_cursor _ _ _ _ _ _ hnone] at h1
      rw [Prod.mk.injEq] at h1
      cases h1.2
      refine ⟨rfl, fsRemoveAll (ensureDir w.fs curTDir) (curTPath (jsOr al name)),
        hnone, ?_, ?_, h1.1.symm⟩
      · intro k hk
        exact fsLookup_fsRemoveAll_of_not_under _ _ _ hk
      · intro k hk _ _
        exact fsLookup_fsRemoveAll_of_under _ _ _ hk
    · rw [if_pos hpe, if_neg hsym] at h1
      rw [Prod.mk.injEq] at h1
      cases h1.2
      cases hl
  · rw [if_neg hpe] at h1
    cases hlk : fsLookup (ensureDir w.fs curTDir) (curTPath (jsOr al name)) with
    | some e =>
      exfalso
      unfold linkFinish ensureSymlinkOpt at h1
      rw [hlk] at h1
      rw [Prod.mk.injEq] at h1
      cases h1.2
    | none =>
      rw [linkFinish_cursor _ _ _ _ _ _ hlk] at h1
      rw [Prod.mk.injEq] at h1
      cases h1.2
      refine ⟨rfl, ensureDir w.fs curTDir, hlk, fun k _ => rfl, ?_, h1.1.symm⟩
      intro k hk hne hw
      rw [fsLookup_ensureDir_ne _ _ _ (ne_tdir_of_under_tpath hk)]
      exact hw

theorem handleIgnoreEntryAdd_idem (w : World) (e : String) (isLocal : Bool) (G Z : FS)
    (ht : jsTrim e = e) (he : e ≠ "")
    (hgit : fileOrMissingB w.fs gPath = true)
    (hexc : fileOrMissingB w.fs ePath = true)
    (hgid : isSymlinkAt w.fs giDir = false)
    (hGg : fsLookup G gPath = fsLookup w.fs gPath)
    (hGe : fsLookup G ePath = fsLookup w.fs ePath)
    (hGgi : fsLookup G giDir = fsLookup w.fs giDir)
    (hZg : fsLookup Z gPath = fsLookup (handleIgnoreEntryAdd G projRoot e isLocal) gPath)
    (hZe : fsLookup Z ePath = fsLookup (handleIgnoreEntryAdd G projRoot e isLocal) ePath)
    (hZgi : fsLookup Z giDir = fsLookup (handleIgnoreEntryAdd G projRoot e isLocal) giDir) :
    handleIgnoreEntryAdd Z projRoot e isLocal = Z := by
  cases isLocal with
  | false =>
    rw [handleIgnoreEntryAdd_false] at hZg
    have hcont1 : containsEntry (addIgnoreEntryFS G gPath e (some "# AI Rules Sync")).1
        gPath e :=
      addIgnoreEntryFS_contains ht he (by rw [fileOrMissingB_congr hGg]; exact hgit)
    have hcontZ : containsEntry Z gPath e := containsEntry_congr hZg hcont1
    rw [handleIgnoreEntryAdd_false, addIgnoreEntryFS_noop hcontZ]
  | true =>
    by_cases hgipe : pathExists w.fs giDir = true
    · have hpeG : pathExists G giDir = true := by
        rw [pathExists_stable_nonsymlink hGgi hgid]
        exact hgipe
      have hfirst : handleIgnoreEntryAdd G projRoot e true
          = (addIgnoreEntryFS (if pathExists G ePath = true then G else createFile G ePath)
              ePath e (some "# AI Rules Sync")).1 := by
        rw [handleIgnoreEntryAdd_true, if_pos hpeG]
      have hfm : fileOrMissingB (if pathExists G ePath = true then G else createFile G ePath)
          ePath = true := by
        by_cases hp : pathExists G ePath = true
        · rw [if_pos hp, fileOrMissingB_congr hGe]
          exact hexc
        · rw [if_neg hp]
          show fileOrMissingB (fsSet G ePath (.file [""])) ePath = true
          unfold fileOrMissingB
          rw [fsLookup_fsSet_self]
      have hcont1 : containsEntry (handleIgnoreEntryAdd G projRoot e true) ePath e := by
        rw [hfirst]
        exact addIgnoreEntryFS_contains ht he hfm
      have hcontZ : containsEntry Z ePath e := containsEntry_congr hZe hcont1
      have hW1gi : fsLookup (handleIgnoreEntryAdd G projRoot e true) giDir
          = fsLookup w.fs giDir := by
        rw [handleIgnoreEntryAdd_lookup_ne G e true giDir giDir_ne_gPath giDir_ne_ePath]
        exact hGgi
      have hZgi' : fsLookup Z giDir = fsLookup w.fs giDir := hZgi.trans hW1gi
      have hpeZ : pathExists Z giDir = true := by
        rw [pathExists_stable_nonsymlink hZgi' hgid]
        exact hgipe
      have hpeZe : pathExists Z ePath = true := by
        obtain ⟨ls, hl, _⟩ := hcontZ
        exact pathExists_of_real hl rfl
      rw [handleIgnoreEntryAdd_true, if_pos hpeZ, if_pos hpeZe,
        addIgnoreEntryFS_noop hcontZ]
    · have hgipe' : pathExists w.fs giDir = false := by
        cases hb : pathExists w.fs giDir
        · rfl
        · exact absurd hb hgipe
      have hpeG : pathExists G giDir = false := by
        rw [pathExists_stable_nonsymlink hGgi hgid]
        exact hgipe'
      have hfirst : handleIgnoreEntryAdd G projRoot e true = G := by
        rw [handleIgnoreEntryAdd_true, if_neg (by rw [hpeG]; exact Bool.false_ne_true)]
      have hZgi' : fsLookup Z giDir = fsLookup w.fs giDir := by
        rw [hZgi, hfirst]
        exact hGgi
      have hpeZ : pathExists Z giDir = false := by
        rw [pathExists_stable_nonsymlink hZgi' hgid]
        exact hgipe'
      rw [handleIgnoreEntryAdd_true, if_neg (by rw [hpeZ]; exact Bool.false_ne_true)]

theorem linkEntry_cursor_relink (w : World) (name : String) (al : Option String)
    (isLocal : Bool) (e0 : FSEntry)
    (hsp : fsLookup w.fs (curSrcPath w name) = some e0) (hns : e0.isSymlinkB = false)
    (htd : (fsLookup w.fs curTDir).isSome)
    (htp : fsLookup w.fs (curTPath (jsOr al name))
        = some (.symlink (curSrcPath w name))) :
    linkEntry cursorRulesAdapter projRoot repoRoot name al isLocal w
      = ({ w with fs := (handleIgnoreEntryAdd (fsSet (fsRemoveAll w.fs
            (curTPath (jsOr al name))) (curTPath (jsOr al name))
            (.symlink (curSrcPath w name))) projRoot
            (".cursor/rules/" ++ jsOr al name) isLocal) },
         .ok ⟨name, jsOr al name, true⟩) := by
  have hpe : pathExists w.fs (curSrcPath w name) = true := pathExists_of_real hsp hns
  rw [linkEntry_cursor_resolved w name al isLocal hpe]
  rw [ensureDir_of_isSome w.fs curTDir htd]
  have hpe2 : pathExists w.fs (curTPath (jsOr al name)) = true :=
    pathExists_symlink_real htp hsp hns
  have hsym : isSymlinkAt w.fs (curTPath (jsOr al name)) = true := by
    unfold isSymlinkAt
    rw [htp]
  rw [if_pos hpe2, if_pos hsym]
  have hnone : fsLookup (fsRemoveAll w.fs (curTPath (jsOr al name)))
      (curTPath (jsOr al name)) = none :=
    fsLookup_fsRemoveAll_of_under _ _ _ (isPrefixOf_refl_seg _)
  rw [linkFinish_cursor _ _ _ _ _ _ hnone]

/-- C4: calling `linkEntry` twice with identical arguments yields the same
end filesystem state as calling it once, and both calls succeed: the first
call leaves a symlink at the target path, the second call removes and
re-creates that symlink (a no-op re-link) and again reports `linked:true`,
the final filesystem agrees with the one-call filesystem at every path,
and the ignore-file addition adds no duplicate line (the hypotheses ask
for a real, non-symlink source entry, well-formed ignore files, a
non-symlink `.git/info`, an ignore entry that is its own trim, and no
stray entries strictly below the target path). -/
theorem linkEntry_idempotent (w : World) (name : String) (al : Option String)
    (isLocal : Bool) (e0 : FSEntry) (w1 : World) (r1 : LinkResult)
    (hsp : fsLookup w.fs (curSrcPath w name) = some e0)
    (hns : e0.isSymlinkB = false)
    (ht : jsTrim (".cursor/rules/" ++ jsOr al name) = ".cursor/rules/" ++ jsOr al name)
    (hgit : fileOrMissingB w.fs gPath = true)
    (hexc : fileOrMissingB w.fs ePath = true)
    (hgid : isSymlinkAt w.fs giDir = false)
    (hnoch : ∀ k, (curTPath (jsOr al name)).isPrefixOf k = true →
        k ≠ curTPath (jsOr al name) → fsLookup w.fs k = none)
    (h1 : linkEntry cursorRulesAdapter projRoot repoRoot name al isLocal w = (w1, .ok r1))
    (hl : r1.linked = true) :
    r1 = ⟨name, jsOr al name, true⟩
    ∧ fsLookup w1.fs (curTPath (jsOr al name)) = some (.symlink (curSrcPath w name))
    ∧ (linkEntry cursorRulesAdapter projRoot repoRoot name al isLocal w1).2
        = .ok ⟨name, jsOr al name, true⟩
    ∧ ∀ k, fsLookup (linkEntry cursorRulesAdapter projRoot repoRoot name al isLocal w1).1.fs
        k = fsLookup w1.fs k := by
  obtain ⟨hr1, F0, hF0tp, hF0frame, hF0under, hw1⟩ :=
    linkEntry_cursor_ok_state w name al isLocal e0 w1 r1 hsp hns h1 hl
  subst hw1
  have hproj : ({ w with fs := (handleIgnoreEntryAdd (fsSet F0 (curTPath (jsOr al name))
      (.symlink (curSrcPath w name))) projRoot (".cursor/rules/" ++ jsOr al name) isLocal) }
      : World).fs = handleIgnoreEntryAdd (fsSet F0 (curTPath (jsOr al name))
      (.symlink (curSrcPath w name))) projRoot (".cursor/rules/" ++ jsOr al name)
      isLocal := rfl
  rw [hproj]
  have hGg : fsLookup (fsSet F0 (curTPath (jsOr al name)) (.symlink (curSrcPath w name)))
      gPath = fsLookup w.fs gPath := by
    rw [fsLookup_fsSet_ne _ _ _ _ (Ne.symm (tpath_ne_gPath _)),
      hF0frame gPath (tpath_npre_gPath _), fsLookup_ensureDir_ne _ _ _ gPath_ne_tdir]
  have hGe : fsLookup (fsSet F0 (curTPath (jsOr al name)) (.symlink (curSrcPath w name)))
      ePath = fsLookup w.fs ePath := by
    rw [fsLookup_fsSet_ne _ _ _ _ (Ne.symm (tpath_ne_ePath _)),
      hF0frame ePath (tpath_npre_ePath _), fsLookup_ensureDir_ne _ _ _ ePath_ne_tdir]
  have hGgi : fsLookup (fsSet F0 (curTPath (jsOr al name)) (.symlink (curSrcPath w name)))
      giDir = fsLookup w.fs giDir := by
    rw [fsLookup_fsSet_ne _ _ _ _ (Ne.symm (tpath_ne_giDir _)),
      hF0frame giDir (tpath_npre_giDir _), fsLookup_ensureDir_ne _ _ _ giDir_ne_tdir]
  have hGsp : fsLookup (fsSet F0 (curTPath (jsOr al name)) (.symlink (curSrcPath w name)))
      (curSrcPath w name) = some e0 := by
    rw [fsLookup_fsSet_ne _ _ _ _ (src_ne_tpath w name _),
      hF0frame (curSrcPath w name) (tpath_npre_src w name _),
      fsLookup_ensureDir_ne _ _ _ (src_ne_tdir w name)]
    exact hsp
  have hW1tp : fsLookup (handleIgnoreEntryAdd (fsSet F0 (curTPath (jsOr al name))
      (.symlink (curSrcPath w name))) projRoot (".cursor/rules/" ++ jsOr al name) isLocal)
      (curTPath (jsOr al name)) = some (.symlink (curSrcPath w name)) := by
    rw [handleIgnoreEntryAdd_lookup_ne _ _ _ _ (tpath_ne_gPath _) (tpath_ne_ePath _),
      fsLookup_fsSet_self]
  have hW1sp : fsLookup (handleIgnoreEntryAdd (fsSet F0 (curTPath (jsOr al name))
      (.symlink (curSrcPath w name))) projRoot (".cursor/rules/" ++ jsOr al name) isLocal)
      (curSrcPath w name) = some e0 := by
    rw [handleIgnoreEntryAdd_lookup_ne _ _ _ _ (src_ne_gPath w name) (src_ne_ePath w name)]
    exact hGsp
  have hW1td : (fsLookup (handleIgnoreEntryAdd (fsSet F0 (curTPath (jsOr al name))
      (.symlink (curSrcPath w name))) projRoot (".cursor/rules/" ++ jsOr al name) isLocal)
      curTDir).isSome := by
    rw [handleIgnoreEntryAdd_lookup_ne _ _ _ _ (Ne.symm gPath_ne_tdir)
      (Ne.symm ePath_ne_tdir), fsLookup_fsSet_ne _ _ _ _ (Ne.symm (tpath_ne_tdir _)),
      hF0frame curTDir (tpath_npre_tdir _)]
    exact fsLookup_ensureDir_isSome w.fs curTDir
  have heq2 := linkEntry_cursor_relink
    { w with fs := (handleIgnoreEntryAdd (fsSet F0 (curTPath (jsOr al name))
        (.symlink (curSrcPath w name))) projRoot (".cursor/rules/" ++ jsOr al name)
        isLocal) }
    name al isLocal e0 hW1sp hns hW1td hW1tp
  rw [hproj] at heq2
  have hcs : curSrcPath { w with fs := (handleIgnoreEntryAdd (fsSet F0
      (curTPath (jsOr al name)) (.symlink (curSrcPath w name))) projRoot
      (".cursor/rules/" ++ jsOr al name) isLocal) } name = curSrcPath w name := rfl
  rw [hcs] at heq2
  have hZg : fsLookup (fsSet (fsRemoveAll (handleIgnoreEntryAdd (fsSet F0
      (curTPath (jsOr al name)) (.symlink (curSrcPath w name))) projRoot
      (".cursor/rules/" ++ jsOr al name) isLocal) (curTPath (jsOr al name)))
      (curTPath (jsOr al name)) (.symlink (curSrcPath w name))) gPath
      = fsLookup (handleIgnoreEntryAdd (fsSet F0 (curTPath (jsOr al name))
      (.symlink (curSrcPath w name))) projRoot (".cursor/rules/" ++ jsOr al name) isLocal)
      gPath := by
    rw [fsLookup_fsSet_ne _ _ _ _ (Ne.symm (tpath_ne_gPath _)),
      fsLookup_fsRemoveAll_of_not_under _ _ _ (tpath_npre_gPath _)]
  have hZe : fsLookup (fsSet (fsRemoveAll (handleIgnoreEntryAdd (fsSet F0
      (curTPath (jsOr al name)) (.symlink (curSrcPath w name))) projRoot
      (".cursor/rules/" ++ jsOr al name) isLocal) (curTPath (jsOr al name)))
      (curTPath (jsOr al name)) (.symlink (curSrcPath w name))) ePath
      = fsLookup (handleIgnoreEntryAdd (fsSet F0 (curTPath (jsOr al name))
      (.symlink (curSrcPath w name))) projRoot (".cursor/rules/" ++ jsOr al name) isLocal)
      ePath := by
    rw [fsLookup_fsSet_ne _ _ _ _ (Ne.symm (tpath_ne_ePath _)),
      fsLookup_fsRemoveAll_of_not_under _ _ _ (tpath_npre_ePath _)]
  have hZgi : fsLookup (fsSet (fsRemoveAll (handleIgnoreEntryAdd (fsSet F0
      (curTPath (jsOr al name)) (.symlink (curSrcPath w name))) projRoot
      (".cursor/rules/" ++ jsOr al name) isLocal) (curTPath (jsOr al name)))
      (curTPath (jsOr al name)) (.symlink (curSrcPath w name))) giDir
      = fsLookup (handleIgnoreEntryAdd (fsSet F0 (curTPath (jsOr al name))
      (.symlink (curSrcPath w name))) projRoot (".cursor/rules/" ++ jsOr al name) isLocal)
      giDir := by
    rw [fsLookup_fsSet_ne _ _ _ _ (Ne.symm (tpath_ne_giDir _)),
      fsLookup_fsRemoveAll_of_not_under _ _ _ (tpath_npre_giDir _)]
  have hidem := handleIgnoreEntryAdd_idem w (".cursor/rules/" ++ jsOr al name) isLocal
    (fsSet F0 (curTPath (jsOr al name)) (.symlink (curSrcPath w name)))
    (fsSet (fsRemoveAll (handleIgnoreEntryAdd (fsSet F0 (curTPath (jsOr al name))
      (.symlink (curSrcPath w name))) projRoot (".cursor/rules/" ++ jsOr al name) isLocal)
      (curTPath (jsOr al name))) (curTPath (jsOr al name))
      (.symlink (curSrcPath w name)))
    ht (curEntry_ne_empty _) hgit hexc hgid hGg hGe hGgi hZg hZe hZgi
  refine ⟨hr1, hW1tp, ?_, ?_⟩
  · rw [heq2]
  · intro k
    rw [heq2]
    show fsLookup (handleIgnoreEntryAdd (fsSet (fsRemoveAll (handleIgnoreEntryAdd
        (fsSet F0 (curTPath (jsOr al name)) (.symlink (curSrcPath w name))) projRoot
        (".cursor/rules/" ++ jsOr al name) isLocal) (curTPath (jsOr al name)))
        (curTPath (jsOr al name)) (.symlink (curSrcPath w name))) projRoot
        (".cursor/rules/" ++ jsOr al name) isLocal) k
      = fsLookup (handleIgnoreEntryAdd (fsSet F0 (curTPath (jsOr al name))
        (.symlink (curSrcPath w name))) projRoot (".cursor/rules/" ++ jsOr al name)
        isLocal) k
    rw [hidem]
    by_cases hk : (curTPath (jsOr al name)).isPrefixOf k = true
    · by_cases hke : k = curTPath (jsOr al name)
      · subst hke
        rw [fsLookup_fsSet_self, hW1tp]
      · rw [fsLookup_fsSet_ne _ _ _ _ hke, fsLookup_fsRemoveAll_of_under _ _ _ hk,
          handleIgnoreEntryAdd_lookup_ne _ _ _ _ (ne_gPath_of_under_tpath hk)
          (ne_ePath_of_under_tpath hk), fsLookup_fsSet_ne _ _ _ _ hke,
          hF0under k hk hke (hnoch k hk hke)]
    · have hk' : (curTPath (jsOr al name)).isPrefixOf k = false := by
        cases hb : (curTPath (jsOr al name)).isPrefixOf k
        · rfl
        · exact absurd hb hk
      have hke : k ≠ curTPath (jsOr al name) := by
        intro h
        rw [h, isPrefixOf_refl_seg] at hk'
        cases hk'
      rw [fsLookup_fsSet_ne _ _ _ _ hke, fsLookup_fsRemoveAll_of_not_under _ _ _ hk']

theorem fsLookup_cons_ne {p k : List String} {e : FSEntry} {rest : FS} (h : p ≠ k) :
    fsLookup ((p, e) :: rest) k = fsLookup rest k := by
  simp only [fsLookup]
  rw [if_neg h]

/-- Witness for C4: a concrete one-rule project; the second call re-links
and returns `linked:true`. -/
theorem linkEntry_idempotent_witness :
    (linkEntry cursorRulesAdapter projRoot repoRoot "react" none false
        { fs := [(["repo", ".cursor", "rules", "react"], .file ["content"]),
            (["proj", ".cursor", "rules"], .dir),
            (["proj", ".cursor", "rules", "react"],
              .symlink ["repo", ".cursor", "rules", "react"]),
            (["proj", ".gitignore"],
              .file ["# AI Rules Sync", ".cursor/rules/react", ""])] }).2
      = .ok ⟨"react", "react", true⟩ :=
  (linkEntry_idempotent
    { fs := [(["repo", ".cursor", "rules", "react"], .file ["content"])] }
    "react" none false (.file ["content"])
    { fs := [(["repo", ".cursor", "rules", "react"], .file ["content"]),
        (["proj", ".cursor", "rules"], .dir),
        (["proj", ".cursor", "rules", "react"],
          .symlink ["repo", ".cursor", "rules", "react"]),
        (["proj", ".gitignore"],
          .file ["# AI Rules Sync", ".cursor/rules/react", ""])] }
    ⟨"react", "react", true⟩
    rfl rfl (by decide) rfl rfl rfl
    (by
      intro k hk hne
      have hR : (["repo", ".cursor", "rules", "react"] : List String) ≠ k := by
        intro h
        subst h
        exact absurd hk (by decide)
      rw [fsLookup_cons_ne hR]
      rfl)
    rfl rfl).2.2.1

/-! ## Claim C3: add/remove roundtrip -/

theorem jsOr_dep (al : Option String) (name : String) :
    jsOr (if jsOr al name = name then none else some (jsOr al name)) name
      = jsOr al name := by
  by_cases h : jsOr al name = name
  · rw [if_pos h, h]
    rfl
  · rw [if_neg h]
    have hne : jsOr al name ≠ "" := by
      intro h0
      apply h
      cases al with
      | none => rfl
      | some s =>
        by_cases hs : s = ""
        · show (if s = "" then name else s) = name
          rw [if_pos hs]
        · exfalso
          apply hs
          have hx : jsOr (some s) name = s := by
            show (if s = "" then name else s) = s
            rw [if_neg hs]
          rw [hx] at h0
          exact h0
    show (if jsOr al name = "" then name else jsOr al name) = jsOr al name
    rw [if_neg hne]

theorem addDependencyGeneric_nomig (cp : String × String) (nm url : String)
    (dep : Option String) (isLocal : Bool) (v : World)
    (hnew : (v.newMain.isSome || v.newLocal.isSome) = true) :
    addDependencyGeneric cp nm url dep isLocal v
      = ((if isLocal
          then { v with newLocal := some (sectSet (readNewD v.newLocal) cp
              (rset (sect (readNewD v.newLocal) cp) (jsOr dep nm)
                (if aliasDiff dep nm then .obj url (some nm) else .url url))) }
          else { v with newMain := some (sectSet (readNewD v.newMain) cp
              (rset (sect (readNewD v.newMain) cp) (jsOr dep nm)
                (if aliasDiff dep nm then .obj url (some nm) else .url url))) }),
        false) := by
  unfold addDependencyGeneric
  rw [migrate_noop_of_new v hnew]
  cases isLocal <;> rfl

theorem removeDependencyGeneric_clears (cp : String × String) (tn : String) (v : World)
    (hnew : (v.newMain.isSome || v.newLocal.isSome) = true)
    (hmain : rget (sect (readNewD v.newMain) cp) tn = none
      ∨ entryTruthy (rget (sect (readNewD v.newMain) cp) tn) = true)
    (hlocal : rget (sect (readNewD v.newLocal) cp) tn = none
      ∨ entryTruthy (rget (sect (readNewD v.newLocal) cp) tn) = true) :
    rget (sect (readNewD (removeDependencyGeneric cp tn v).1.newMain) cp) tn = none
    ∧ rget (sect (readNewD (removeDependencyGeneric cp tn v).1.newLocal) cp) tn = none := by
  unfold removeDependencyGeneric
  rw [migrate_noop_of_new v hnew]
  simp only []
  split
  · rename_i h1
    split
    · rename_i h2
      constructor
      · show rget (sect (sectSet (readNewD v.newMain) cp
            (rdel (sect (readNewD v.newMain) cp) tn)) cp) tn = none
        rw [sect_sectSet_self]
        exact rget_rdel_self _ _
      · show rget (sect (sectSet (readNewD v.newLocal) cp
            (rdel (sect (readNewD v.newLocal) cp) tn)) cp) tn = none
        rw [sect_sectSet_self]
        exact rget_rdel_self _ _
    · rename_i h2
      constructor
      · show rget (sect (sectSet (readNewD v.newMain) cp
            (rdel (sect (readNewD v.newMain) cp) tn)) cp) tn = none
        rw [sect_sectSet_self]
        exact rget_rdel_self _ _
      · show rget (sect (readNewD v.newLocal) cp) tn = none
        rcases hlocal with h | h
        · exact h
        · exact absurd h h2
  · rename_i h1
    split
    · rename_i h2
      constructor
      · show rget (sect (readNewD v.newMain) cp) tn = none
        rcases hmain with h | h
        · exact h
        · exact absurd h h1
      · show rget (sect (sectSet (readNewD v.newLocal) cp
            (rdel (sect (readNewD v.newLocal) cp) tn)) cp) tn = none
        rw [sect_sectSet_self]
        exact rget_rdel_self _ _
    · rename_i h2
      constructor
      · show rget (sect (readNewD v.newMain) cp) tn = none
        rcases hmain with h | h
        · exact h
        · exact absurd h h1
      · show rget (sect (readNewD v.newLocal) cp) tn = none
        rcases hlocal with h | h
        · exact h
        · exact absurd h h2

theorem handleRemove_cursor_clears (v : World) (tn : String)
    (hnm : v.newMain.isSome = true)
    (hpe : pathExists v.fs (curTPath tn) = true)
    (hmain : rget (sect (readNewD v.newMain) ("cursor", "rules")) tn = none
      ∨ entryTruthy (rget (sect (readNewD v.newMain) ("cursor", "rules")) tn) = true)
    (hlocal : rget (sect (readNewD v.newLocal) ("cursor", "rules")) tn = none
      ∨ entryTruthy (rget (sect (readNewD v.newLocal) ("cursor", "rules")) tn) = true) :
    fsLookup (handleRemove cursorRulesAdapter projRoot tn v).1.fs (curTPath tn) = none
    ∧ ignoreFree (handleRemove cursorRulesAdapter projRoot tn v).1.fs gPath
        (".cursor/rules/" ++ tn)
    ∧ ignoreFree (handleRemove cursorRulesAdapter projRoot tn v).1.fs ePath
        (".cursor/rules/" ++ tn)
    ∧ rget (sect (readNewD (handleRemove cursorRulesAdapter projRoot tn v).1.newMain)
        ("cursor", "rules")) tn = none
    ∧ rget (sect (readNewD (handleRemove cursorRulesAdapter projRoot tn v).1.newLocal)
        ("cursor", "rules")) tn = none := by
  have hU2 : unlinkEntry cursorRulesAdapter projRoot tn v
      = ({ v with fs := (removeIgnoreEntryFS ((removeIgnoreEntryFS
          (fsRemoveAll v.fs (curTPath tn)) gPath (".cursor/rules/" ++ tn)).1) ePath
          (".cursor/rules/" ++ tn)).1 }, true) := by
    rw [unlinkEntry_cursor_eq, if_pos hpe]
  have hHR : handleRemove cursorRulesAdapter projRoot tn v
      = removeDependencyGeneric ("cursor", "rules") tn
        { v with fs := (removeIgnoreEntryFS ((removeIgnoreEntryFS
          (fsRemoveAll v.fs (curTPath tn)) gPath (".cursor/rules/" ++ tn)).1) ePath
          (".cursor/rules/" ++ tn)).1 } := by
    unfold handleRemove
    rw [hU2]
    rfl
  have hnew' : (({ v with fs := (removeIgnoreEntryFS ((removeIgnoreEntryFS
      (fsRemoveAll v.fs (curTPath tn)) gPath (".cursor/rules/" ++ tn)).1) ePath
      (".cursor/rules/" ++ tn)).1 } : World).newMain.isSome
      || ({ v with fs := (removeIgnoreEntryFS ((removeIgnoreEntryFS
      (fsRemoveAll v.fs (curTPath tn)) gPath (".cursor/rules/" ++ tn)).1) ePath
      (".cursor/rules/" ++ tn)).1 } : World).newLocal.isSome) = true := by
    show (v.newMain.isSome || v.newLocal.isSome) = true
    rw [hnm]
    rfl
  have hfs : (removeDependencyGeneric ("cursor", "rules") tn
      { v with fs := (removeIgnoreEntryFS ((removeIgnoreEntryFS
        (fsRemoveAll v.fs (curTPath tn)) gPath (".cursor/rules/" ++ tn)).1) ePath
        (".cursor/rules/" ++ tn)).1 }).1.fs
      = (removeIgnoreEntryFS ((removeIgnoreEntryFS
        (fsRemoveAll v.fs (curTPath tn)) gPath (".cursor/rules/" ++ tn)).1) ePath
        (".cursor/rules/" ++ tn)).1 := by
    have h := (removeDependencyGeneric_frame ("cursor", "rules") tn
      { v with fs := (removeIgnoreEntryFS ((removeIgnoreEntryFS
        (fsRemoveAll v.fs (curTPath tn)) gPath (".cursor/rules/" ++ tn)).1) ePath
        (".cursor/rules/" ++ tn)).1 }).2.2.1
    rw [migrate_noop_of_new _ hnew'] at h
    exact h
  have hcfg := removeDependencyGeneric_clears ("cursor", "rules") tn
    { v with fs := (removeIgnoreEntryFS ((removeIgnoreEntryFS
      (fsRemoveAll v.fs (curTPath tn)) gPath (".cursor/rules/" ++ tn)).1) ePath
      (".cursor/rules/" ++ tn)).1 } hnew' hmain hlocal
  rw [hHR]
  refine ⟨?_, ?_, ?_, hcfg.1, hcfg.2⟩
  · rw [hfs, removeIgnoreEntryFS_lookup_ne (tpath_ne_ePath tn),
      removeIgnoreEntryFS_lookup_ne (tpath_ne_gPath tn)]
    exact fsLookup_fsRemoveAll_of_under _ _ _ (isPrefixOf_refl_seg _)
  · rw [hfs]
    exact ignoreFree_congr (removeIgnoreEntryFS_lookup_ne gPath_ne_ePath)
      (removeIgnoreEntryFS_free (curEntry_ne_empty _) _ _)
  · rw [hfs]
    exact removeIgnoreEntryFS_free (curEntry_ne_empty _) _ _

theorem jsOr_ne_empty (al : Option String) (name : String)
    (h : ¬ jsOr al name = name) : jsOr al name ≠ "" := by
  intro h0
  apply h
  cases al with
  | none => rfl
  | some s =>
    by_cases hs : s = ""
    · show (if s = "" then name else s) = name
      rw [if_pos hs]
    · exfalso
      apply hs
      have hx : jsOr (some s) name = s := by
        show (if s = "" then name else s) = s
        rw [if_neg hs]
      rw [hx] at h0
      exact h0

theorem handleAdd_cursor_state (w : World) (url name : String) (al : Option String)
    (isLocal : Bool) (e0 : FSEntry) (w3 : World) (ar : AddResult)
    (hsp : fsLookup w.fs (curSrcPath w name) = some e0)
    (hns : e0.isSymlinkB = false)
    (hnm : w.newMain.isSome = true)
    (hurl : url ≠ "")
    (hmain0 : rget (sect (readNewD w.newMain) ("cursor", "rules")) (jsOr al name) = none
      ∨ entryTruthy (rget (sect (readNewD w.newMain) ("cursor", "rules"))
          (jsOr al name)) = true)
    (hlocal0 : rget (sect (readNewD w.newLocal) ("cursor", "rules")) (jsOr al name) = none
      ∨ entryTruthy (rget (sect (readNewD w.newLocal) ("cursor", "rules"))
          (jsOr al name)) = true)
    (h1 : handleAdd cursorRulesAdapter projRoot repoRoot url name al isLocal w
        = (w3, .ok ar))
    (hl : ar.linked = true) :
    w3.newMain.isSome = true
    ∧ pathExists w3.fs (curTPath (jsOr al name)) = true
    ∧ (rget (sect (readNewD w3.newMain) ("cursor", "rules")) (jsOr al name) = none
      ∨ entryTruthy (rget (sect (readNewD w3.newMain) ("cursor", "rules"))
          (jsOr al name)) = true)
    ∧ (rget (sect (readNewD w3.newLocal) ("cursor", "rules")) (jsOr al name) = none
      ∨ entryTruthy (rget (sect (readNewD w3.newLocal) ("cursor", "rules"))
          (jsOr al name)) = true) := by
  cases isLocal with
  | false =>
    rcases hle : linkEntry cursorRulesAdapter projRoot repoRoot name al false w
      with ⟨w1, res⟩
    cases res with
    | error err =>
      have hA : handleAdd cursorRulesAdapter projRoot repoRoot url name al false w
          = (w1, .error err) := by
        unfold handleAdd
        rw [hle]
      rw [hA] at h1
      rw [Prod.mk.injEq] at h1
      cases h1.2
    | ok r =>
      have hA : handleAdd cursorRulesAdapter projRoot repoRoot url name al false w
          = ((addDependencyGeneric ("cursor", "rules") r.sourceName url
              (if r.targetName = r.sourceName then none else some r.targetName)
              false w1).1,
            .ok ⟨r.sourceName, r.targetName, r.linked,
              (addDependencyGeneric ("cursor", "rules") r.sourceName url
                (if r.targetName = r.sourceName then none else some r.targetName)
                false w1).2⟩) := by
        unfold handleAdd
        rw [hle]
        rfl
      rw [hA] at h1
      rw [Prod.mk.injEq] at h1
      obtain ⟨hw3, har⟩ := h1
      cases har
      have hlr : r.linked = true := hl
      obtain ⟨hr1, F0, hF0tp, hF0frame, hF0under, hw1⟩ :=
        linkEntry_cursor_ok_state w name al false e0 w1 r hsp hns hle hlr
      subst hr1
      subst hw1
      subst hw3
      have hproj1 : (⟨name, jsOr al name, true⟩ : LinkResult).sourceName = name := rfl
      have hproj2 : (⟨name, jsOr al name, true⟩ : LinkResult).targetName
          = jsOr al name := rfl
      rw [hproj1, hproj2]
      have hnew1 : (({ w with fs := (handleIgnoreEntryAdd (fsSet F0
          (curTPath (jsOr al name)) (.symlink (curSrcPath w name))) projRoot
          (".cursor/rules/" ++ jsOr al name) false) } : World).newMain.isSome
          || ({ w with fs := (handleIgnoreEntryAdd (fsSet F0
          (curTPath (jsOr al name)) (.symlink (curSrcPath w name))) projRoot
          (".cursor/rules/" ++ jsOr al name) false) } : World).newLocal.isSome)
          = true := by
        show (w.newMain.isSome || w.newLocal.isSome) = true
        rw [hnm]
        rfl
      rw [addDependencyGeneric_nomig ("cursor", "rules") name url
        (if jsOr al name = name then none else some (jsOr al name)) false
        { w with fs := (handleIgnoreEntryAdd (fsSet F0 (curTPath (jsOr al name))
          (.symlink (curSrcPath w name))) projRoot
          (".cursor/rules/" ++ jsOr al name) false) } hnew1]
      rw [jsOr_dep al name]
      have hGsp : fsLookup (fsSet F0 (curTPath (jsOr al name))
          (.symlink (curSrcPath w name))) (curSrcPath w name) = some e0 := by
        rw [fsLookup_fsSet_ne _ _ _ _ (src_ne_tpath w name _),
          hF0frame (curSrcPath w name) (tpath_npre_src w name _),
          fsLookup_ensureDir_ne _ _ _ (src_ne_tdir w name)]
        exact hsp
      have hW1tp : fsLookup (handleIgnoreEntryAdd (fsSet F0 (curTPath (jsOr al name))
          (.symlink (curSrcPath w name))) projRoot (".cursor/rules/" ++ jsOr al name)
          false) (curTPath (jsOr al name)) = some (.symlink (curSrcPath w name)) := by
        rw [handleIgnoreEntryAdd_lookup_ne _ _ _ _ (tpath_ne_gPath _) (tpath_ne_ePath _),
          fsLookup_fsSet_self]
      have hW1sp : fsLookup (handleIgnoreEntryAdd (fsSet F0 (curTPath (jsOr al name))
          (.symlink (curSrcPath w name))) projRoot (".cursor/rules/" ++ jsOr al name)
          false) (curSrcPath w name) = some e0 := by
        rw [handleIgnoreEntryAdd_lookup_ne _ _ _ _ (src_ne_gPath w name)
          (src_ne_ePath w name)]
        exact hGsp
      refine ⟨rfl, pathExists_symlink_real hW1tp hW1sp hns, Or.inr ?_, hlocal0⟩
      have hval : entryTruthy (rget (sect (sectSet (readNewD w.newMain)
          ("cursor", "rules") (rset (sect (readNewD w.newMain) ("cursor", "rules"))
          (jsOr al name) (if aliasDiff (if jsOr al name = name then none
            else some (jsOr al name)) name then .obj url (some name) else .url url)))
          ("cursor", "rules")) (jsOr al name)) = true := by
        rw [sect_sectSet_self, rget_rset_self]
        by_cases hq : jsOr al name = name
        · have hdn : ¬ (aliasDiff none name = true) := by
            intro hcon
            exact Bool.false_ne_true hcon
          rw [if_pos hq, if_neg hdn]
          exact decide_eq_true hurl
        · rw [if_neg hq]
          have hd : aliasDiff (some (jsOr al name)) name = true := by
            simp [aliasDiff, jsOr_ne_empty al name hq, hq]
          rw [if_pos hd]
          rfl
      exact hval
  | true =>
    rcases hle : linkEntry cursorRulesAdapter projRoot repoRoot name al true w
      with ⟨w1, res⟩
    cases res with
    | error err =>
      have hA : handleAdd cursorRulesAdapter projRoot repoRoot url name al true w
          = (w1, .error err) := by
        unfold handleAdd
        rw [hle]
      rw [hA] at h1
      rw [Prod.mk.injEq] at h1
      cases h1.2
    | ok r =>
      have hA : handleAdd cursorRulesAdapter projRoot repoRoot url name al true w
          = ({ (addDependencyGeneric ("cursor", "rules") r.sourceName url
              (if r.targetName = r.sourceName then none else some r.targetName)
              true w1).1 with
              fs := (addIgnoreEntryFS (addDependencyGeneric ("cursor", "rules")
                r.sourceName url (if r.targetName = r.sourceName then none
                else some r.targetName) true w1).1.fs gPath "ai-rules-sync.local.json"
                (some "# Local AI Rules Sync Config")).1 },
            .ok ⟨r.sourceName, r.targetName, r.linked,
              (addDependencyGeneric ("cursor", "rules") r.sourceName url
                (if r.targetName = r.sourceName then none else some r.targetName)
                true w1).2⟩) := by
        unfold handleAdd
        rw [hle]
        rfl
      rw [hA] at h1
      rw [Prod.mk.injEq] at h1
      obtain ⟨hw3, har⟩ := h1
      cases har
      have hlr : r.linked = true := hl
      obtain ⟨hr1, F0, hF0tp, hF0frame, hF0under, hw1⟩ :=
        linkEntry_cursor_ok_state w name al true e0 w1 r hsp hns hle hlr
      subst hr1
      subst hw1
      subst hw3
      have hproj1 : (⟨name, jsOr al name, true⟩ : LinkResult).sourceName = name := rfl
      have hproj2 : (⟨name, jsOr al name, true⟩ : LinkResult).targetName
          = jsOr al name := rfl
      rw [hproj1, hproj2]
      have hnew1 : (({ w with fs := (handleIgnoreEntryAdd (fsSet F0
          (curTPath (jsOr al name)) (.symlink (curSrcPath w name))) projRoot
          (".cursor/rules/" ++ jsOr al name) true) } : World).newMain.isSome
          || ({ w with fs := (handleIgnoreEntryAdd (fsSet F0
          (curTPath (jsOr al name)) (.symlink (curSrcPath w name))) projRoot
          (".cursor/rules/" ++ jsOr al name) true) } : World).newLocal.isSome)
          = true := by
        show (w.newMain.isSome || w.newLocal.isSome) = true
        rw [hnm]
        rfl
      rw [addDependencyGeneric_nomig ("cursor", "rules") name url
        (if jsOr al name = name then none else some (jsOr al name)) true
        { w with fs := (handleIgnoreEntryAdd (fsSet F0 (curTPath (jsOr al name))
          (.symlink (curSrcPath w name))) projRoot
          (".cursor/rules/" ++ jsOr al name) true) } hnew1]
      rw [jsOr_dep al name]
      have hGsp : fsLookup (fsSet F0 (curTPath (jsOr al name))
          (.symlink (curSrcPath w name))) (curSrcPath w name) = some e0 := by
        rw [fsLookup_fsSet_ne _ _ _ _ (src_ne_tpath w name _),
          hF0frame (curSrcPath w name) (tpath_npre_src w name _),
          fsLookup_ensureDir_ne _ _ _ (src_ne_tdir w name)]
        exact hsp
      have hW1tp : fsLookup (handleIgnoreEntryAdd (fsSet F0 (curTPath (jsOr al name))
          (.symlink (curSrcPath w name))) projRoot (".cursor/rules/" ++ jsOr al name)
          true) (curTPath (jsOr al name)) = some (.symlink (curSrcPath w name)) := by
        rw [handleIgnoreEntryAdd_lookup_ne _ _ _ _ (tpath_ne_gPath _) (tpath_ne_ePath _),
          fsLookup_fsSet_self]
      have hW1sp : fsLookup (handleIgnoreEntryAdd (fsSet F0 (curTPath (jsOr al name))
          (.symlink (curSrcPath w name))) projRoot (".cursor/rules/" ++ jsOr al name)
          true) (curSrcPath w name) = some e0 := by
        rw [handleIgnoreEntryAdd_lookup_ne _ _ _ _ (src_ne_gPath w name)
          (src_ne_ePath w name)]
        exact hGsp
      have hW3tp : fsLookup (addIgnoreEntryFS (handleIgnoreEntryAdd (fsSet F0
          (curTPath (jsOr al name)) (.symlink (curSrcPath w name))) projRoot
          (".cursor/rules/" ++ jsOr al name) true) gPath "ai-rules-sync.local.json"
          (some "# Local AI Rules Sync Config")).1 (curTPath (jsOr al name))
          = some (.symlink (curSrcPath w name)) := by
        rw [addIgnoreEntryFS_lookup_ne (tpath_ne_gPath _)]
        exact hW1tp
      have hW3sp : fsLookup (addIgnoreEntryFS (handleIgnoreEntryAdd (fsSet F0
          (curTPath (jsOr al name)) (.symlink (curSrcPath w name))) projRoot
          (".cursor/rules/" ++ jsOr al name) true) gPath "ai-rules-sync.local.json"
          (some "# Local AI Rules Sync Config")).1 (curSrcPath w name)
          = some e0 := by
        rw [addIgnoreEntryFS_lookup_ne (src_ne_gPath w name)]
        exact hW1sp
      refine ⟨hnm, pathExists_symlink_real hW3tp hW3sp hns, hmain0, Or.inr ?_⟩
      have hval : entryTruthy (rget (sect (sectSet (readNewD w.newLocal)
          ("cursor", "rules") (rset (sect (readNewD w.newLocal) ("cursor", "rules"))
          (jsOr al name) (if aliasDiff (if jsOr al name = name then none
            else some (jsOr al name)) name then .obj url (some name) else .url url)))
          ("cursor", "rules")) (jsOr al name)) = true := by
        rw [sect_sectSet_self, rget_rset_self]
        by_cases hq : jsOr al name = name
        · have hdn : ¬ (aliasDiff none name = true) := by
            intro hcon
            exact Bool.false_ne_true hcon
          rw [if_pos hq, if_neg hdn]
          exact decide_eq_true hurl
        · rw [if_neg hq]
          have hd : aliasDiff (some (jsOr al name)) name = true := by
            simp [aliasDiff, jsOr_ne_empty al name hq, hq]
          rw [if_pos hd]
          rfl
      exact hval

/-- C3: for all (name, alias), a successful `add(name, alias)` (a
`handleAdd` that links and records the dependency) followed by
`remove(alias)` (`handleRemove` at the effective target name
`alias || name`) leaves the target path absent, both ignore files free of
the corresponding `.cursor/rules/…` entry, and the dependency record
absent from both the public and the private config file (the hypotheses
ask for a real non-symlink source, a current-format project, a non-empty
repository URL, and dependency records without falsy entries at the
alias). -/
theorem add_remove_roundtrip (w : World) (url name : String) (al : Option String)
    (isLocal : Bool) (e0 : FSEntry) (w3 : World) (ar : AddResult)
    (hsp : fsLookup w.fs (curSrcPath w name) = some e0)
    (hns : e0.isSymlinkB = false)
    (hnm : w.newMain.isSome = true)
    (hurl : url ≠ "")
    (hmain0 : rget (sect (readNewD w.newMain) ("cursor", "rules")) (jsOr al name) = none
      ∨ entryTruthy (rget (sect (readNewD w.newMain) ("cursor", "rules"))
          (jsOr al name)) = true)
    (hlocal0 : rget (sect (readNewD w.newLocal) ("cursor", "rules")) (jsOr al name) = none
      ∨ entryTruthy (rget (sect (readNewD w.newLocal) ("cursor", "rules"))
          (jsOr al name)) = true)
    (h1 : handleAdd cursorRulesAdapter projRoot repoRoot url name al isLocal w
        = (w3, .ok ar))
    (hl : ar.linked = true) :
    fsLookup (handleRemove cursorRulesAdapter projRoot (jsOr al name) w3).1.fs
        (curTPath (jsOr al name)) = none
    ∧ ignoreFree (handleRemove cursorRulesAdapter projRoot (jsOr al name) w3).1.fs gPath
        (".cursor/rules/" ++ jsOr al name)
    ∧ ignoreFree (handleRemove cursorRulesAdapter projRoot (jsOr al name) w3).1.fs ePath
        (".cursor/rules/" ++ jsOr al name)
    ∧ rget (sect (readNewD (handleRemove cursorRulesAdapter projRoot (jsOr al name)
        w3).1.newMain) ("cursor", "rules")) (jsOr al name) = none
    ∧ rget (sect (readNewD (handleRemove cursorRulesAdapter projRoot (jsOr al name)
        w3).1.newLocal) ("cursor", "rules")) (jsOr al name) = none := by
  obtain ⟨hA1, hA2, hA3, hA4⟩ := handleAdd_cursor_state w url name al isLocal e0 w3 ar
    hsp hns hnm hurl hmain0 hlocal0 h1 hl
  exact handleRemove_cursor_clears w3 (jsOr al name) hA1 hA2 hA3 hA4

/-- Witness for C3: a concrete one-rule add/remove roundtrip; the target
path is absent afterwards. -/
theorem add_remove_roundtrip_witness :
    fsLookup (handleRemove cursorRulesAdapter projRoot (jsOr none "react")
        { fs := [(["repo", ".cursor", "rules", "react"], .file ["content"]),
            (["proj", ".cursor", "rules"], .dir),
            (["proj", ".cursor", "rules", "react"],
              .symlink ["repo", ".cursor", "rules", "react"]),
            (["proj", ".gitignore"],
              .file ["# AI Rules Sync", ".cursor/rules/react", ""])],
          newMain := some { sections := [(("cursor", "rules"),
            [("react", RuleEntry.url "https://ex.com/rules.git")])] } }).1.fs
      (curTPath (jsOr none "react")) = none :=
  (add_remove_roundtrip
    { fs := [(["repo", ".cursor", "rules", "react"], .file ["content"])],
      newMain := some {} }
    "https://ex.com/rules.git" "react" none false (.file ["content"])
    { fs := [(["repo", ".cursor", "rules", "react"], .file ["content"]),
        (["proj", ".cursor", "rules"], .dir),
        (["proj", ".cursor", "rules", "react"],
          .symlink ["repo", ".cursor", "rules", "react"]),
        (["proj", ".gitignore"],
          .file ["# AI Rules Sync", ".cursor/rules/react", ""])],
      newMain := some { sections := [(("cursor", "rules"),
        [("react", RuleEntry.url "https://ex.com/rules.git")])] } }
    ⟨"react", "react", true, false⟩
    rfl rfl rfl (by decide) (Or.inl rfl) (Or.inl rfl) rfl rfl).1
